import Mathlib

/-!
Shallow embedding of the bulk-import/export service
(`vairarchi/bulk-import-export-api`), covering the record model, the
per-record validator (`internal/validation`), the users-CSV and
articles-NDJSON streaming import pipelines (`pkg/streaming`), the job
registry (`pkg/jobs`), and the request-boundary format check
(`internal/handlers`).

Conventions of the embedding:
* Go `time.Time` is a `Nat` (0 = the zero time, mirroring `IsZero`).
* External oracles that the repository merely calls are parameters,
  bundled in `ValCtx`: the go-playground `email`/`uuid` tag predicates,
  `time.Parse` for RFC-3339 cells, `uuid.New` (`fresh`) and `time.Now`
  (`now`).  No claim settled here depends on a particular choice of
  these oracles; concrete instantiations are used only to evaluate
  closed statements.
* The Store is an oracle as well: each existence probe may depend on the
  list of records the pipeline has inserted so far (the live database
  evolves during an import), plus an arbitrary initial database folded
  into the oracle function itself.  Batched inserts are recorded in the
  pipeline state; persistence failures are not modelled (the claims
  below all concern runs without a persistence error).
-/

namespace BulkApi

/-- `internal/models.User` (timestamps as `Nat`, 0 = zero time). -/
structure User where
  id : String
  email : String
  name : String
  role : String
  active : Bool
  createdAt : Nat
  updatedAt : Nat
deriving Repr, DecidableEq

/-- `internal/models.Article`. -/
structure Article where
  id : String
  slug : String
  title : String
  body : String
  authorId : String
  tags : List String
  publishedAt : Option Nat
  status : String
  createdAt : Nat
  updatedAt : Nat
deriving Repr, DecidableEq

/-- `internal/models.ValidationError`; the `Value interface{}` field is
flattened to a string rendering (claims never inspect it beyond
equality) and the unused `Record` field is dropped. -/
structure ValidationError where
  row : Nat
  field : String
  value : String
  message : String
deriving Repr, DecidableEq

/-- `internal/models.ImportJob`. -/
structure ImportJob where
  id : String
  status : String
  resourceType : String
  fileName : String
  totalRecords : Nat
  validRecords : Nat
  errorRecords : Nat
  errors : List ValidationError
  createdAt : Nat
  completedAt : Option Nat
  progress : Nat
deriving Repr, DecidableEq

/-- `internal/models.ExportJob`. -/
structure ExportJob where
  id : String
  status : String
  resourceType : String
  format : String
  filters : List (String × String)
  totalRecords : Nat
  downloadUrl : String
  createdAt : Nat
  completedAt : Option Nat
  progress : Nat
deriving Repr, DecidableEq

/-- The argument tuple of one `JobManager.UpdateImportJob` call
(`status, progress, totalRecords, validRecords, errorRecords, errors`). -/
structure UpdateArgs where
  status : String
  progress : Nat
  total : Nat
  valid : Nat
  errorCount : Nat
  errors : List ValidationError
deriving Repr, DecidableEq

/-- External oracles consumed by the validator and the CSV parser: the
go-playground `email` and `uuid` tag predicates, `time.Parse`
(RFC-3339), the store's existence probes (each a function of the
records inserted so far by this pipeline run, so that the evolving
database is covered), `uuid.New` and `time.Now`. -/
structure ValCtx where
  isEmail : String → Bool
  isUUID : String → Bool
  parseTime : String → Option Nat
  emailExists : List User → String → Bool
  userExists : String → Bool
  slugExists : List Article → String → Bool
  fresh : String
  now : Nat

/-- `models.User.GenerateID`. -/
def generateIdUser (fresh : String) (u : User) : User :=
  if u.id = "" then { u with id := fresh } else u

/-- `models.User.SetTimestamps`. -/
def setTimestampsUser (now : Nat) (u : User) : User :=
  { u with
    createdAt := if u.createdAt = 0 then now else u.createdAt,
    updatedAt := now }

/-- `models.Article.GenerateID`. -/
def generateIdArticle (fresh : String) (a : Article) : Article :=
  if a.id = "" then { a with id := fresh } else a

/-- `models.Article.SetTimestamps`. -/
def setTimestampsArticle (now : Nat) (a : Article) : Article :=
  { a with
    createdAt := if a.createdAt = 0 then now else a.createdAt,
    updatedAt := now }

/-- The allowed user roles (`validRoles` in `Validator.ValidateUser`,
also the `oneof=admin manager reader` struct tag). -/
def roleAllowed (r : String) : Bool :=
  r = "admin" || r = "manager" || r = "reader"

/-- `validate.Struct` on a `User`: fields in declaration order, at most
one error per field (the first failing tag), messages as produced by
`getValidationMessage`.  Tags: `id omitempty,uuid`; `email
required,email`; `name required`; `role required,oneof=...`. -/
def structErrorsUser (ctx : ValCtx) (u : User) (rowNum : Nat) : List ValidationError :=
  (if u.id ≠ "" && !ctx.isUUID u.id then
    [⟨rowNum, "id", u.id, "invalid UUID format"⟩] else [])
  ++ (if u.email = "" then [⟨rowNum, "email", u.email, "email is required"⟩]
      else if !ctx.isEmail u.email then
        [⟨rowNum, "email", u.email, "invalid email format"⟩] else [])
  ++ (if u.name = "" then [⟨rowNum, "name", u.name, "name is required"⟩] else [])
  ++ (if u.role = "" then [⟨rowNum, "role", u.role, "role is required"⟩]
      else if !roleAllowed u.role then
        [⟨rowNum, "role", u.role, "role must be one of: admin manager reader"⟩] else [])

/-- `Validator.ValidateUser`: struct validation, then the custom
email-uniqueness rule (fires only when `id` is set), then the custom
role rule.  `db` is the list of users inserted so far by this run. -/
def validateUser (ctx : ValCtx) (db : List User) (u : User) (rowNum : Nat) :
    List ValidationError :=
  structErrorsUser ctx u rowNum
  ++ (if u.email ≠ "" && (u.id ≠ "" && ctx.emailExists db u.email) then
      [⟨rowNum, "email", u.email, "email already exists"⟩] else [])
  ++ (if u.role ≠ "" && !roleAllowed u.role then
      [⟨rowNum, "role", u.role, "role must be one of: admin, manager, reader"⟩] else [])

/-- One character class of the slug regex `[a-z0-9]`. -/
def slugChar (c : Char) : Bool :=
  (97 ≤ c.toNat && c.toNat ≤ 122) || (48 ≤ c.toNat && c.toNat ≤ 57)

/-- `slugRegex.MatchString`: the kebab-case regex
`[a-z0-9]+(-[a-z0-9]+)*` anchored at both ends, expressed via the
hyphen-separated segments (each must be non-empty and lower-alnum;
leading/trailing/double hyphens create an empty segment and fail, and
the empty string fails). -/
def slugMatches (s : String) : Bool :=
  (s.splitOn "-").all (fun seg => seg ≠ "" && seg.toList.all slugChar)

/-- `validate.Struct` on an `Article`.  Tags: `id omitempty,uuid`;
`slug required`; `title required`; `body required`; `author_id
required,uuid`; `status required,oneof=draft published`. -/
def structErrorsArticle (ctx : ValCtx) (a : Article) (rowNum : Nat) :
    List ValidationError :=
  (if a.id ≠ "" && !ctx.isUUID a.id then
    [⟨rowNum, "id", a.id, "invalid UUID format"⟩] else [])
  ++ (if a.slug = "" then [⟨rowNum, "slug", a.slug, "slug is required"⟩] else [])
  ++ (if a.title = "" then [⟨rowNum, "title", a.title, "title is required"⟩] else [])
  ++ (if a.body = "" then [⟨rowNum, "body", a.body, "body is required"⟩] else [])
  ++ (if a.authorId = "" then
        [⟨rowNum, "authorid", a.authorId, "authorid is required"⟩]
      else if !ctx.isUUID a.authorId then
        [⟨rowNum, "authorid", a.authorId, "invalid UUID format"⟩] else [])
  ++ (if a.status = "" then [⟨rowNum, "status", a.status, "status is required"⟩]
      else if !(a.status = "draft" || a.status = "published") then
        [⟨rowNum, "status", a.status, "status must be one of: draft published"⟩] else [])

/-- `Validator.ValidateArticle`.  Returns the error list together with
the (possibly mutated) article: on `published` with no `published_at`
the validator fills in the current time in place.  `dbArticles` is the
list of articles inserted so far by this run (the slug probe sees
them). -/
def validateArticle (ctx : ValCtx) (dbArticles : List Article) (a : Article)
    (rowNum : Nat) : List ValidationError × Article :=
  let errs := structErrorsArticle ctx a rowNum
  let errs := errs ++
    (if a.slug ≠ "" && !slugMatches a.slug then
      [⟨rowNum, "slug", a.slug,
        "slug must be kebab-case (lowercase letters, numbers, and hyphens only)"⟩]
     else [])
  let errs := errs ++
    (if a.slug ≠ "" && (a.id ≠ "" && ctx.slugExists dbArticles a.slug) then
      [⟨rowNum, "slug", a.slug, "slug already exists"⟩] else [])
  let errs := errs ++
    (if a.authorId ≠ "" && !ctx.userExists a.authorId then
      [⟨rowNum, "author_id", a.authorId, "author_id does not exist"⟩] else [])
  let errs := errs ++
    (if a.status = "draft" && a.publishedAt.isSome then
      [⟨rowNum, "published_at", "", "draft articles cannot have published_at date"⟩]
     else [])
  let a := if a.status = "published" && a.publishedAt.isNone then
    { a with publishedAt := some ctx.now } else a
  (errs, a)

/-- `BatchValidator.ValidateUsers`: validates `users[i]` with row number
`startRow + i + 1`; valid records get id/timestamps stamped and are
returned in order, errors of invalid records are accumulated in order.
Returns `(validUsers, newErrors)`. -/
def validateUsers (ctx : ValCtx) (db : List User) (startRow : Nat) :
    List User → Nat → List User × List ValidationError
  | [], _ => ([], [])
  | u :: rest, i =>
    let errs := validateUser ctx db u (startRow + i + 1)
    let tail := validateUsers ctx db startRow rest (i + 1)
    if errs = [] then
      (setTimestampsUser ctx.now (generateIdUser ctx.fresh u) :: tail.1, tail.2)
    else
      (tail.1, errs ++ tail.2)

/-- `BatchValidator.ValidateArticles`, analogous to `validateUsers`. -/
def validateArticles (ctx : ValCtx) (dbArticles : List Article) (startRow : Nat) :
    List Article → Nat → List Article × List ValidationError
  | [], _ => ([], [])
  | a :: rest, i =>
    let res := validateArticle ctx dbArticles a (startRow + i + 1)
    let tail := validateArticles ctx dbArticles startRow rest (i + 1)
    if res.1 = [] then
      (setTimestampsArticle ctx.now (generateIdArticle ctx.fresh res.2) :: tail.1,
       tail.2)
    else
      (tail.1, res.1 ++ tail.2)

/-! ### CSV decoding (`Processor.processUsersCSV` input side)

A CSV input is a list of physical lines as `encoding/csv` delivers
them: either a reader-level error (`CSVRow.err`, e.g. a quoting error)
or a parsed record of cells.  The first element is the header line. -/

/-- One `csv.Reader.Read` outcome. -/
inductive CSVRow where
  | err : CSVRow
  | record (cells : List String) : CSVRow
deriving Repr, DecidableEq

/-- The header map `colIndex`: Go writes `colIndex[col] = i` for each
header cell in order, so a duplicated column name keeps its last
index. -/
def colIndex (header : List String) (col : String) : Option Nat :=
  ((header.enum.filter (fun p => p.2 = col)).getLast?).map (fun p => p.1)

/-- The Latin-1 part of Go `unicode.IsSpace` (higher code-point space
characters never arise in the inputs considered here). -/
def goIsSpace (c : Char) : Bool :=
  c.toNat = 9 || c.toNat = 10 || c.toNat = 11 || c.toNat = 12 ||
  c.toNat = 13 || c.toNat = 32 || c.toNat = 133 || c.toNat = 160

/-- Go `strings.TrimSpace`, written by structural recursion on the
character list so that it computes by kernel reduction. -/
def goTrim (s : String) : String :=
  String.mk (((s.data.dropWhile goIsSpace).reverse.dropWhile goIsSpace).reverse)

/-- Reading one cell in `parseUserFromCSV`: present iff the column is in
the header map and the record is long enough; Go trims it with
`strings.TrimSpace` at every use site. -/
def cellOf (header cells : List String) (col : String) : Option String :=
  ((colIndex header col).bind (fun i => cells.get? i)).map goTrim

/-- `strconv.ParseBool`. -/
def parseBool (s : String) : Option Bool :=
  if s = "1" || s = "t" || s = "T" || s = "TRUE" || s = "true" || s = "True" then
    some true
  else if s = "0" || s = "f" || s = "F" || s = "FALSE" || s = "false" || s = "False" then
    some false
  else none

/-- The `updated_at` step of `parseUserFromCSV`. -/
def parseUserUpdatedAt (ctx : ValCtx) (header cells : List String) (u : User) :
    Except String User :=
  match cellOf header cells "updated_at" with
  | none => Except.ok u
  | some s =>
    match ctx.parseTime s with
    | none => Except.error ("invalid updated_at value: " ++ s)
    | some t => Except.ok { u with updatedAt := t }

/-- The `created_at` / `updated_at` steps of `parseUserFromCSV`. -/
def parseUserTimes (ctx : ValCtx) (header cells : List String) (u : User) :
    Except String User :=
  match cellOf header cells "created_at" with
  | none => parseUserUpdatedAt ctx header cells u
  | some s =>
    match ctx.parseTime s with
    | none => Except.error ("invalid created_at value: " ++ s)
    | some t => parseUserUpdatedAt ctx header cells { u with createdAt := t }

/-- `Processor.parseUserFromCSV`: string fields are copied (trimmed),
`active` must satisfy `strconv.ParseBool`, the timestamp cells must
satisfy `time.Parse(RFC3339)` — a failure aborts the row with the
corresponding error message.  A column absent from the header (or a
short record) leaves the zero value. -/
def parseUserFromCSV (ctx : ValCtx) (header cells : List String) :
    Except String User :=
  let u : User :=
    { id := (cellOf header cells "id").getD ""
      email := (cellOf header cells "email").getD ""
      name := (cellOf header cells "name").getD ""
      role := (cellOf header cells "role").getD ""
      active := false, createdAt := 0, updatedAt := 0 }
  match cellOf header cells "active" with
  | none => parseUserTimes ctx header cells u
  | some s =>
    match parseBool s with
    | none => Except.error ("invalid active value: " ++ s)
    | some b => parseUserTimes ctx header cells { u with active := b }

/-! ### The users-CSV import loop (`Processor.processUsersCSV`)

The loop is a fold over the data rows; the state mirrors the Go local
variables plus the two effects the claims observe: the users handed to
`storage.BatchInsertUsers` and the `JobManager.UpdateImportJob` calls in
order.  The cancellation signal is never raised (the claims concern
uncancelled runs), and batch inserts succeed (no persistence error). -/

/-- `BatchSize` from `pkg/streaming`. -/
def BatchSize : Nat := 1000

/-- Local state of `processUsersCSV`, plus the observed effects. -/
structure CSVState where
  totalProcessed : Nat
  totalValid : Nat
  batch : List User
  rowNumber : Nat
  valErrors : List ValidationError
  inserted : List User
  updates : List UpdateArgs
deriving Repr, DecidableEq

/-- State at the top of the loop, right after the header was read. -/
def csvInit : CSVState :=
  { totalProcessed := 0, totalValid := 0, batch := [], rowNumber := 1,
    valErrors := [], inserted := [], updates := [] }

/-- The batch-full block of `processUsersCSV`: validate the batch with
`startRow = totalProcessed - len(batch)`, insert the accepted subset,
bump `totalValid`, push a progress update carrying the validator's
cumulative error list, reset the batch. -/
def csvFlush (ctx : ValCtx) (st : CSVState) : CSVState :=
  let res := validateUsers ctx st.inserted (st.totalProcessed - st.batch.length)
    st.batch 0
  let st :=
    if res.1 ≠ [] then
      { st with inserted := st.inserted ++ res.1,
                totalValid := st.totalValid + res.1.length }
    else st
  let allErrs := st.valErrors ++ res.2
  let progress := st.totalProcessed * 50 / (st.totalProcessed + 1000)
  { st with
    valErrors := allErrs,
    updates := st.updates ++
      [⟨"processing", progress, st.totalProcessed, st.totalValid,
        allErrs.length, allErrs⟩],
    batch := [] }

/-- The tail of a loop iteration common to parsed and
parse-failed records: `rowNumber++; totalProcessed++`, then the
batch-full check. -/
def csvAfterCount (ctx : ValCtx) (st : CSVState) : CSVState :=
  let st := { st with rowNumber := st.rowNumber + 1,
                      totalProcessed := st.totalProcessed + 1 }
  if BatchSize ≤ st.batch.length then csvFlush ctx st else st

/-- One iteration of the `processUsersCSV` loop on one physical row.
A reader-level CSV error pushes an update with field `csv`, progress 0
and error count 1, then `continue`s (`totalProcessed` is NOT bumped).
A record whose fields fail to parse pushes the analogous `parsing`
update; a parsed record joins the batch.  Either way the row numbers
are advanced and a full batch is flushed. -/
def csvStep (ctx : ValCtx) (header : List String) (st : CSVState) :
    CSVRow → CSVState
  | CSVRow.err =>
    { st with
      updates := st.updates ++
        [⟨"processing", 0, st.totalProcessed, st.totalValid, 1,
          [⟨st.rowNumber + 1, "csv", "", "CSV parsing error"⟩]⟩],
      rowNumber := st.rowNumber + 1 }
  | CSVRow.record cells =>
    match parseUserFromCSV ctx header cells with
    | Except.error msg =>
      csvAfterCount ctx
        { st with
          updates := st.updates ++
            [⟨"processing", 0, st.totalProcessed, st.totalValid, 1,
              [⟨st.rowNumber + 1, "parsing", "", msg⟩]⟩] }
    | Except.ok u =>
      csvAfterCount ctx { st with batch := st.batch ++ [u] }

/-- After EOF: validate/insert the final partial batch (no progress
update), then push the terminal update — `failed` iff the batch
validator accumulated at least one error and nothing was persisted,
else `completed`; progress 100 and the cumulative validator errors. -/
def csvFinish (ctx : ValCtx) (st : CSVState) : CSVState :=
  let st :=
    if st.batch ≠ [] then
      let res := validateUsers ctx st.inserted
        (st.totalProcessed - st.batch.length) st.batch 0
      let st :=
        if res.1 ≠ [] then
          { st with inserted := st.inserted ++ res.1,
                    totalValid := st.totalValid + res.1.length }
        else st
      { st with valErrors := st.valErrors ++ res.2, batch := [] }
    else st
  let status := if st.valErrors ≠ [] && st.totalValid = 0 then "failed"
    else "completed"
  { st with
    updates := st.updates ++
      [⟨status, 100, st.totalProcessed, st.totalValid,
        st.valErrors.length, st.valErrors⟩] }

/-- `processUsersCSV` on a whole input (header line first): reading the
header from an empty input, or from a reader-level error line, aborts
with an error before any update; otherwise the loop runs to EOF. -/
def processUsersCSV (ctx : ValCtx) (input : List CSVRow) :
    Except String CSVState :=
  match input with
  | [] => Except.error "failed to read CSV header"
  | CSVRow.err :: _ => Except.error "failed to read CSV header"
  | CSVRow.record header :: rows =>
    Except.ok (csvFinish ctx (rows.foldl (csvStep ctx header) csvInit))

/-- The single general error `JobProcessor.ProcessImportJob` records
when the pipeline returns an error. -/
def generalError (msg : String) : ValidationError :=
  ⟨0, "general", "", "Import failed: " ++ msg⟩

/-- The full `UpdateImportJob` call sequence a users-CSV import job
receives: `ProcessImportJob` first marks the job `processing` with zero
counters, then the pipeline runs; if it returns an error the job is
marked `failed` with progress 100 and zeroed counters. -/
def runImportUsers (ctx : ValCtx) (input : List CSVRow) : List UpdateArgs :=
  ⟨"processing", 0, 0, 0, 0, []⟩ ::
    (match processUsersCSV ctx input with
     | Except.ok st => st.updates
     | Except.error msg => [⟨"failed", 100, 0, 0, 0, [generalError msg]⟩])

/-! ### The articles-NDJSON import loop (`Processor.processArticlesNDJSON`)

The input is a list of logical NDJSON lines.  `encoding/json.Decoder`
semantics, traced from the Go standard library: `More()` peeks for a
non-whitespace byte; `Decode` on a line that is not well-formed JSON
hits a scanner error, stores it in the decoder's sticky `err` field and
does **not** advance past the offending bytes, and every later `Decode`
returns the sticky error immediately; a well-formed JSON value that
fails to unmarshal into the target struct (a type error) is consumed
normally.  `processCommentsNDJSON` is line-for-line identical up to the
record type. -/

/-- One logical NDJSON line, as the decoder will classify it. -/
inductive NdLine where
  | good (a : Article) : NdLine
  | typeErr : NdLine
  | malformed : NdLine
deriving Repr, DecidableEq

/-- Decoder state: the remaining lines and the sticky error flag. -/
structure NdDecoder where
  remaining : List NdLine
  sticky : Bool
deriving Repr, DecidableEq

/-- `Decoder.More`: true iff input bytes remain (the sticky error is
not consulted). -/
def ndMore (d : NdDecoder) : Bool := !d.remaining.isEmpty

/-- `Decoder.Decode`: sticky errors repeat without consuming input; a
malformed line sets the sticky error and is not consumed; a type-error
line is consumed and reported; a good line is consumed and returned. -/
def ndDecode (d : NdDecoder) : NdDecoder × Option Article :=
  if d.sticky then (d, none)
  else
    match d.remaining with
    | [] => (d, none)
    | NdLine.good a :: rest => (⟨rest, false⟩, some a)
    | NdLine.typeErr :: rest => (⟨rest, false⟩, none)
    | NdLine.malformed :: _ => ({ d with sticky := true }, none)

/-- Local state of `processArticlesNDJSON` plus observed effects. -/
structure NdState where
  dec : NdDecoder
  totalProcessed : Nat
  totalValid : Nat
  batch : List Article
  rowNumber : Nat
  valErrors : List ValidationError
  inserted : List Article
  updates : List UpdateArgs
deriving Repr, DecidableEq

/-- Initial state of the articles loop on a given line list. -/
def ndInit (lines : List NdLine) : NdState :=
  { dec := ⟨lines, false⟩, totalProcessed := 0, totalValid := 0, batch := [],
    rowNumber := 0, valErrors := [], inserted := [], updates := [] }

/-- The batch-full block of the articles loop (mirror of `csvFlush`). -/
def ndFlush (ctx : ValCtx) (st : NdState) : NdState :=
  let res := validateArticles ctx st.inserted
    (st.totalProcessed - st.batch.length) st.batch 0
  let st :=
    if res.1 ≠ [] then
      { st with inserted := st.inserted ++ res.1,
                totalValid := st.totalValid + res.1.length }
    else st
  let allErrs := st.valErrors ++ res.2
  let progress := st.totalProcessed * 50 / (st.totalProcessed + 1000)
  { st with
    valErrors := allErrs,
    updates := st.updates ++
      [⟨"processing", progress, st.totalProcessed, st.totalValid,
        allErrs.length, allErrs⟩],
    batch := [] }

/-- One iteration of the articles loop (entered when `More()` held):
decode; on error push an update with field `json`, row `rowNumber+1`,
progress 0, error count 1; on success append to the batch; then
`rowNumber++; totalProcessed++` and the batch-full check. -/
def ndIter (ctx : ValCtx) (st : NdState) : NdState :=
  let d := ndDecode st.dec
  let st : NdState :=
    match d.2 with
    | none =>
      { st with
        dec := d.1,
        updates := st.updates ++
          [⟨"processing", 0, st.totalProcessed, st.totalValid, 1,
            [⟨st.rowNumber + 1, "json", "", "JSON parsing error"⟩]⟩] }
    | some a => { st with dec := d.1, batch := st.batch ++ [a] }
  let st := { st with rowNumber := st.rowNumber + 1,
                      totalProcessed := st.totalProcessed + 1 }
  if BatchSize ≤ st.batch.length then ndFlush ctx st else st

/-- After `More()` turns false: process the final partial batch and push
the terminal update (same status rule as the CSV path). -/
def ndFinish (ctx : ValCtx) (st : NdState) : NdState :=
  let st :=
    if st.batch ≠ [] then
      let res := validateArticles ctx st.inserted
        (st.totalProcessed - st.batch.length) st.batch 0
      let st :=
        if res.1 ≠ [] then
          { st with inserted := st.inserted ++ res.1,
                    totalValid := st.totalValid + res.1.length }
        else st
      { st with valErrors := st.valErrors ++ res.2, batch := [] }
    else st
  let status := if st.valErrors ≠ [] && st.totalValid = 0 then "failed"
    else "completed"
  { st with
    updates := st.updates ++
      [⟨status, 100, st.totalProcessed, st.totalValid,
        st.valErrors.length, st.valErrors⟩] }

/-- `processArticlesNDJSON` with fuel: `none` means the loop has not
finished within `fuel` iterations.  (The Go loop has no fuel — this is
how a potentially diverging `for decoder.More()` loop is embedded.) -/
def ndRun (ctx : ValCtx) : Nat → NdState → Option NdState
  | 0, st => if ndMore st.dec then none else some (ndFinish ctx st)
  | fuel + 1, st =>
    if ndMore st.dec then ndRun ctx fuel (ndIter ctx st)
    else some (ndFinish ctx st)

/-! ### Job registry (`pkg/jobs.JobManager`) -/

/-- The bounded error-log merge inside `UpdateImportJob` (`maxErrors =
1000`; Go's `job.Errors[:500]` cannot panic on the reachable states, so
clamping `take` is exact). -/
def mergeErrors (cur new : List ValidationError) : List ValidationError :=
  if 1000 < cur.length + new.length then
    let cur1 :=
      if cur.length < 500 then
        cur ++ new.take (min (500 - cur.length) new.length)
      else cur
    if 500 < new.length then
      cur1.take 500 ++ new.drop (new.length - 500)
    else
      cur1.take 500 ++ new
  else cur ++ new

/-- The in-place mutation `UpdateImportJob` performs on an existing job:
counters and progress are overwritten from the arguments, errors are
merged under the cap, `completed_at` is stamped on terminal status. -/
def applyImportUpdate (now : Nat) (j : ImportJob) (u : UpdateArgs) : ImportJob :=
  { j with
    status := u.status, progress := u.progress, totalRecords := u.total,
    validRecords := u.valid, errorRecords := u.errorCount,
    errors := mergeErrors j.errors u.errors,
    completedAt :=
      if u.status = "completed" || u.status = "failed" then some now
      else j.completedAt }

/-- The in-place mutation `UpdateExportJob` performs on an existing job. -/
def applyExportUpdate (now : Nat) (j : ExportJob) (status : String)
    (progress totalRecords : Nat) (downloadUrl : String) : ExportJob :=
  { j with
    status := status, progress := progress, totalRecords := totalRecords,
    downloadUrl := downloadUrl,
    completedAt :=
      if status = "completed" || status = "failed" then some now
      else j.completedAt }

/-- The two maps of `JobManager`, as association lists with unique keys
(Go map semantics: lookup by key, in-place overwrite). -/
structure JobManager where
  importJobs : List (String × ImportJob)
  exportJobs : List (String × ExportJob)
deriving Repr, DecidableEq

/-- Map lookup. -/
def lookupImport (jm : JobManager) (id : String) : Option ImportJob :=
  (jm.importJobs.find? (fun p => p.1 = id)).map (fun p => p.2)

/-- Map lookup. -/
def lookupExport (jm : JobManager) (id : String) : Option ExportJob :=
  (jm.exportJobs.find? (fun p => p.1 = id)).map (fun p => p.2)

/-- `JobManager.UpdateImportJob`: a missing id is a silent no-op, an
existing job is mutated in place. -/
def updateImportJob (now : Nat) (jm : JobManager) (id : String)
    (u : UpdateArgs) : JobManager :=
  match lookupImport jm id with
  | none => jm
  | some j =>
    { jm with
      importJobs := jm.importJobs.map
        (fun p => if p.1 = id then (p.1, applyImportUpdate now j u) else p) }

/-- `JobManager.UpdateExportJob`: a missing id is a silent no-op. -/
def updateExportJob (now : Nat) (jm : JobManager) (id : String)
    (status : String) (progress totalRecords : Nat) (downloadUrl : String) :
    JobManager :=
  match lookupExport jm id with
  | none => jm
  | some j =>
    { jm with
      exportJobs := jm.exportJobs.map
        (fun p =>
          if p.1 = id then
            (p.1, applyExportUpdate now j status progress totalRecords downloadUrl)
          else p) }

/-- A job after a sequence of `UpdateImportJob` calls (each found the
job present). -/
def runUpdates (now : Nat) (j : ImportJob) (us : List UpdateArgs) : ImportJob :=
  us.foldl (applyImportUpdate now) j

/-- All errors delivered to `UpdateImportJob` across a call sequence,
in delivery order ("observed errors"). -/
def deliveredErrors (us : List UpdateArgs) : List ValidationError :=
  us.foldl (fun acc u => acc ++ u.errors) []

/-- The shape the bounded error log actually guarantees, relative to
the observed errors `obs`: never more than 1000 entries; exactly the
observed errors while at most 1000 were observed; past the cap, the
first 500 observed errors survive as the prefix and the list keeps at
least 501 entries. -/
def errCapInv (obs cur : List ValidationError) : Prop :=
  cur.length ≤ 1000 ∧
    (obs.length ≤ 1000 → cur = obs) ∧
    (1000 < obs.length → cur.take 500 = obs.take 500 ∧ 501 ≤ cur.length)

/-- The fresh job built by `JobManager.CreateImportJob`. -/
def newImportJob (id resourceType fileName : String) (now : Nat) : ImportJob :=
  { id := id, status := "pending", resourceType := resourceType,
    fileName := fileName, totalRecords := 0, validRecords := 0,
    errorRecords := 0, errors := [], createdAt := now, completedAt := none,
    progress := 0 }

/-- The successive registry snapshots of one job under a sequence of
`UpdateImportJob` calls (initial snapshot first).  `GetImportJob`
returns a deep copy, so a snapshot is exactly the stored record. -/
def snapshots (now : Nat) (j : ImportJob) (us : List UpdateArgs) :
    List ImportJob :=
  us.scanl (applyImportUpdate now) j

/-! ### Request boundary (`internal/handlers`) and export headers -/

/-- `Handler.isValidResourceFormat`: the `validCombinations` table. -/
def validCombinations (resourceType : String) : Option (List String) :=
  if resourceType = "users" then some ["csv", "ndjson", "json"]
  else if resourceType = "articles" then some ["ndjson", "json"]
  else if resourceType = "comments" then some ["ndjson", "json"]
  else none

/-- `Handler.isValidResourceFormat`. -/
def isValidResourceFormat (resourceType format : String) : Bool :=
  match validCombinations resourceType with
  | none => false
  | some formats => formats.contains format

/-- The `(kind, format)` pairs `Processor.ProcessImport` can actually
process (its dispatch switch); every other pair makes it return an
`unsupported` error. -/
def processImportSupported (resourceType format : String) : Bool :=
  if resourceType = "users" then format = "csv"
  else if resourceType = "articles" then format = "ndjson"
  else if resourceType = "comments" then format = "ndjson"
  else false

/-- The response headers `Processor.StreamExport` sets before
dispatching: the content type is a constant, independent of the
requested format. -/
def streamExportHeaders (resourceType format : String) :
    List (String × String) :=
  [("Content-Type", "application/x-ndjson"),
   ("Content-Disposition",
     "attachment; filename=" ++ resourceType ++ "." ++ format)]

/-- Header lookup on the response. -/
def headerValue (hs : List (String × String)) (k : String) : Option String :=
  (hs.find? (fun p => p.1 = k)).map (fun p => p.2)

/-! ### Concrete instantiations of the external oracles

Used only to state closed (fully concrete) theorems; every closed
statement below is arranged so that its truth value does not depend on
the oracle entries it actually consults (empty emails, empty ids,
absent timestamp columns), so any instantiation exhibits the behaviour
of the Go code. -/

/-- An oracle where nothing exists yet and no timestamp parses. -/
def ctx0 : ValCtx :=
  { isEmail := fun s => s = "alice@example.com", isUUID := fun _ => false,
    parseTime := fun _ => none,
    emailExists := fun _ _ => false, userExists := fun _ => false,
    slugExists := fun _ _ => false, fresh := "fresh-id", now := 7 }

/-- An oracle whose email predicate accepts everything (for runs whose
rows are meant to validate cleanly). -/
def ctx1 : ValCtx :=
  { isEmail := fun _ => true, isUUID := fun _ => false,
    parseTime := fun _ => none,
    emailExists := fun _ _ => false, userExists := fun _ => false,
    slugExists := fun _ _ => false, fresh := "fresh-id", now := 7 }

/-- Header of the 1001-row CSV input below. -/
def hdr1 : List String := ["email", "name", "role", "active"]

/-- A data row every column of which parses and validates. -/
def goodCells : List String := ["a@b.c", "N", "admin", "true"]

/-- A data row whose `active` cell fails `strconv.ParseBool`. -/
def badCells : List String := ["a@b.c", "N", "admin", "zzz"]

/-- The user `parseUserFromCSV` produces from `goodCells`. -/
def u1 : User :=
  { id := "", email := "a@b.c", name := "N", role := "admin", active := true,
    createdAt := 0, updatedAt := 0 }

/-- `u1` after id generation and timestamp stamping under `ctx1`. -/
def v1 : User :=
  { id := "fresh-id", email := "a@b.c", name := "N", role := "admin",
    active := true, createdAt := 7, updatedAt := 7 }

/-- 1000 parse-clean rows followed by one parse-failing row (header
first): the smallest shape that triggers a mid-stream batch update
followed by a parse-error update. -/
def bigInput : List CSVRow :=
  CSVRow.record hdr1 ::
    (List.replicate 1000 (CSVRow.record goodCells) ++ [CSVRow.record badCells])

/-- Loop state of the 1001-row run after 999 parse-clean rows. -/
def st999 : CSVState :=
  { totalProcessed := 999, totalValid := 0, batch := List.replicate 999 u1,
    rowNumber := 1000, valErrors := [], inserted := [], updates := [] }

/-- Loop state after the 1000th row fills and flushes the batch. -/
def st1000 : CSVState :=
  { totalProcessed := 1000, totalValid := 1000, batch := [],
    rowNumber := 1001, valErrors := [], inserted := List.replicate 1000 v1,
    updates := [⟨"processing", 25, 1000, 1000, 0, []⟩] }

/-- Loop state after the parse-failing 1001st row. -/
def st1001 : CSVState :=
  { totalProcessed := 1001, totalValid := 1000, batch := [],
    rowNumber := 1002, valErrors := [],
    inserted := List.replicate 1000 v1,
    updates := [⟨"processing", 25, 1000, 1000, 0, []⟩,
                ⟨"processing", 0, 1000, 1000, 1,
                  [⟨1002, "parsing", "", "invalid active value: zzz"⟩]⟩] }

/-- First batch of observed errors for the error-cap scenario
(rows 1..700). -/
def errsA : List ValidationError :=
  (List.range 700).map (fun i => ⟨i + 1, "email", "", "duplicate"⟩)

/-- Second batch of observed errors (rows 701..1100). -/
def errsB : List ValidationError :=
  (List.range 400).map (fun i => ⟨i + 701, "email", "", "duplicate"⟩)

/-- The `(kind, format)` pairs `isValidResourceFormat` accepts. -/
def boundaryPairs : List (String × String) :=
  [("users", "csv"), ("users", "ndjson"), ("users", "json"),
   ("articles", "ndjson"), ("articles", "json"),
   ("comments", "ndjson"), ("comments", "json")]

/-- The `(kind, format)` pairs the import pipeline can process. -/
def pipelinePairs : List (String × String) :=
  [("users", "csv"), ("articles", "ndjson"), ("comments", "ndjson")]

/-- All errors delivered to the registry across an update sequence, in
order. -/
def allUpdateErrors (us : List UpdateArgs) : List ValidationError :=
  us.foldr (fun u acc => u.errors ++ acc) []

/-- Row-number correctness for reader-level and field-level parse
errors relative to a data-row list `rs` (physical data row `k`,
1-based, is reported as `k + 1`, the header counted). -/
def parseErrPointers (ctx : ValCtx) (header : List String) (rs : List CSVRow)
    (es : List ValidationError) : Prop :=
  ∀ e ∈ es,
    (e.field = "csv" →
      ∃ k, 1 ≤ k ∧ e.row = k + 1 ∧ rs.get? (k - 1) = some CSVRow.err) ∧
    (e.field = "parsing" →
      ∃ k cells msg, 1 ≤ k ∧ e.row = k + 1 ∧
        rs.get? (k - 1) = some (CSVRow.record cells) ∧
        parseUserFromCSV ctx header cells = Except.error msg)

/-- Errors that did not come from the parsing paths. -/
def noParseFields (es : List ValidationError) : Prop :=
  ∀ e ∈ es, e.field ≠ "csv" ∧ e.field ≠ "parsing"

/-- A batch-validation error stamped with the 1-based index `k` of the
very data row whose parsed user produced it (for some store state). -/
def valErrPointer (ctx : ValCtx) (header : List String) (rs : List CSVRow)
    (e : ValidationError) : Prop :=
  ∃ k cells u db, 1 ≤ k ∧ k ≤ rs.length ∧ e.row = k ∧
    rs.get? (k - 1) = some (CSVRow.record cells) ∧
    parseUserFromCSV ctx header cells = Except.ok u ∧
    e ∈ validateUser ctx db u k

/-- Every data row is a reader-parsed record whose fields parse. -/
def rowsAllParse (ctx : ValCtx) (header : List String)
    (rs : List CSVRow) : Prop :=
  ∀ r ∈ rs, ∃ cells u, r = CSVRow.record cells ∧
    parseUserFromCSV ctx header cells = Except.ok u

/-- Loop invariant for parse-error row numbering: the row counter
tracks the consumed prefix, every parse-path error delivered so far
points (at offset +1) at the failing row, and the validator's
accumulated errors never carry a parse-path field. -/
def csvErrInvA (ctx : ValCtx) (header : List String) (pre : List CSVRow)
    (st : CSVState) : Prop :=
  st.rowNumber = pre.length + 1 ∧
    parseErrPointers ctx header pre (allUpdateErrors st.updates) ∧
    noParseFields st.valErrors

/-- Loop invariant for validation-error row numbering (used when every
row parses): the processed counter tracks the prefix, the batch holds
the parsed users of the last `len(batch)` rows in order, and every
error accumulated or delivered so far is stamped with the 1-based
index of the row that produced it. -/
def csvErrInvB (ctx : ValCtx) (header : List String) (pre : List CSVRow)
    (st : CSVState) : Prop :=
  st.totalProcessed = pre.length ∧
    (∃ m, m + st.batch.length = pre.length ∧
      ∀ j < st.batch.length, ∃ cells u,
        pre.get? (m + j) = some (CSVRow.record cells) ∧
        parseUserFromCSV ctx header cells = Except.ok u ∧
        st.batch.get? j = some u) ∧
    (∀ e ∈ st.valErrors, valErrPointer ctx header pre e) ∧
    (∀ e ∈ allUpdateErrors st.updates, valErrPointer ctx header pre e)

/-- Counter ordering between two registry updates: totals and valids
never decrease. -/
def updatesOrd (a b : UpdateArgs) : Prop :=
  a.total ≤ b.total ∧ a.valid ≤ b.valid

/-- Loop invariant of `processUsersCSV`: the updates pushed so far are
monotone in totals/valids, each is bounded by the current local
counters, carries status `processing` and reports no more valid than
total records; and the local counters satisfy
`totalValid + len(batch) ≤ totalProcessed`. -/
def csvGood (st : CSVState) : Prop :=
  st.updates.Pairwise updatesOrd ∧
    (∀ u ∈ st.updates,
      u.total ≤ st.totalProcessed ∧ u.valid ≤ st.totalValid ∧
        u.status = "processing" ∧ u.valid ≤ u.total) ∧
    st.totalValid + st.batch.length ≤ st.totalProcessed

/-! ## Theorems -/

/-- No struct-validation error of a user carries the custom uniqueness
message. -/
theorem structErrorsUser_no_exists_msg (ctx : ValCtx) (u : User) (r : Nat) :
    ∀ e ∈ structErrorsUser ctx u r, e.message ≠ "email already exists" := by
  intro e he
  simp only [structErrorsUser, List.mem_append] at he
  rcases he with ((h | h) | h) | h <;> (repeat' split at h) <;> simp_all

/-- C8: for a user record with a non-empty email, `ValidateUser` reports
"email already exists" exactly when the record's id is non-empty and
the store's email probe answers true. -/
theorem c8_email_exists_iff (ctx : ValCtx) (db : List User) (u : User)
    (rowNum : Nat) (hmail : u.email ≠ "") :
    (∃ e ∈ validateUser ctx db u rowNum, e.message = "email already exists") ↔
      (u.id ≠ "" ∧ ctx.emailExists db u.email = true) := by
  constructor
  · rintro ⟨e, he, hmsg⟩
    simp only [validateUser, List.mem_append] at he
    rcases he with (h | h) | h
    · exact absurd hmsg (structErrorsUser_no_exists_msg ctx u rowNum e h)
    · split at h
      · next hc =>
        simp only [List.mem_singleton] at h
        simp only [Bool.and_eq_true, decide_eq_true_eq, bne_iff_ne] at hc
        exact ⟨hc.2.1, hc.2.2⟩
      · simp at h
    · split at h
      · simp only [List.mem_singleton] at h
        subst h
        simp at hmsg
      · simp at h
  · rintro ⟨hid, hex⟩
    refine ⟨⟨rowNum, "email", u.email, "email already exists"⟩, ?_, rfl⟩
    simp only [validateUser, List.mem_append]
    left; right
    simp [hmail, hid, hex]

/-- C8 witness: a concrete record with id set and a positive email
probe is reported, via the theorem. -/
theorem c8_email_exists_iff_witness :
    ("x@y.z" ≠ "") ∧
      ((∃ e ∈ validateUser
          { ctx0 with emailExists := fun _ _ => true } []
          { id := "id-1", email := "x@y.z", name := "X", role := "admin",
            active := true, createdAt := 0, updatedAt := 0 } 4,
          e.message = "email already exists") ↔
        (("id-1" : String) ≠ "" ∧
          ({ ctx0 with emailExists := fun _ _ => true } : ValCtx).emailExists []
            "x@y.z" = true)) :=
  ⟨by decide,
   c8_email_exists_iff { ctx0 with emailExists := fun _ _ => true } []
     { id := "id-1", email := "x@y.z", name := "X", role := "admin",
       active := true, createdAt := 0, updatedAt := 0 } 4 (by decide)⟩

/-- C9 counterexample: a streaming CSV export response does not carry
`text/csv`; the handler sets `application/x-ndjson` for every format. -/
theorem c9_counterexample :
    headerValue (streamExportHeaders "users" "csv") "Content-Type" =
        some "application/x-ndjson" ∧
      ("application/x-ndjson" : String) ≠ "text/csv" := by
  constructor
  · rfl
  · decide

/-- C9 amended: `StreamExport` sets the response `Content-Type` to
`application/x-ndjson` unconditionally, whatever the resource kind and
requested format. -/
theorem c9_content_type_constant (resourceType format : String) :
    headerValue (streamExportHeaders resourceType format) "Content-Type" =
      some "application/x-ndjson" := rfl

/-- C10: updating an import job or an export job under an id that is
not in the registry leaves the whole registry unchanged. -/
theorem c10_update_missing_id_noop (now : Nat) (jm : JobManager)
    (idI idE : String) (u : UpdateArgs) (status downloadUrl : String)
    (progress totalRecords : Nat)
    (hI : lookupImport jm idI = none) (hE : lookupExport jm idE = none) :
    updateImportJob now jm idI u = jm ∧
      updateExportJob now jm idE status progress totalRecords downloadUrl = jm := by
  constructor
  · unfold updateImportJob
    rw [hI]
  · unfold updateExportJob
    rw [hE]

/-- C10 witness: concrete empty registry and a fresh id. -/
theorem c10_update_missing_id_noop_witness :
    lookupImport ⟨[], []⟩ "absent" = none ∧
      lookupExport ⟨[], []⟩ "absent" = none ∧
      updateImportJob 3 ⟨[], []⟩ "absent" ⟨"processing", 1, 2, 3, 4, []⟩ = ⟨[], []⟩ ∧
      updateExportJob 3 ⟨[], []⟩ "absent" "processing" 1 2 "u" = ⟨[], []⟩ := by
  refine ⟨rfl, rfl, ?_, ?_⟩
  · exact (c10_update_missing_id_noop 3 ⟨[], []⟩ "absent" "absent"
      ⟨"processing", 1, 2, 3, 4, []⟩ "processing" "u" 1 2 rfl rfl).1
  · exact (c10_update_missing_id_noop 3 ⟨[], []⟩ "absent" "absent"
      ⟨"processing", 1, 2, 3, 4, []⟩ "processing" "u" 1 2 rfl rfl).2

/-- C7 counterexample: `(users, json)` is none of `(users, csv)`,
`(articles, ndjson)`, `(comments, ndjson)`, yet the request boundary
accepts it (so an import job is created and processing is started),
while the pipeline dispatch cannot process it (the job later fails
asynchronously instead of a synchronous 400). -/
theorem c7_counterexample :
    isValidResourceFormat "users" "json" = true ∧
      processImportSupported "users" "json" = false := by
  constructor <;> rfl

/-- C7 amended: the boundary check accepts exactly the seven
`(kind, format)` pairs of `validCombinations` — strictly more than the
three pairs the import pipeline supports; a pair accepted at the
boundary but unsupported by the pipeline yields a job that fails
asynchronously rather than a synchronous 400. -/
theorem c7_boundary_vs_pipeline (resourceType format : String) :
    (isValidResourceFormat resourceType format = true ↔
      (resourceType, format) ∈ boundaryPairs) ∧
    (processImportSupported resourceType format = true ↔
      (resourceType, format) ∈ pipelinePairs) := by
  constructor
  · simp only [isValidResourceFormat, validCombinations, boundaryPairs]
    split_ifs with h1 h2 h3 <;> simp_all [Prod.ext_iff]
  · simp only [processImportSupported, pipelinePairs]
    split_ifs with h1 h2 h3 <;> simp_all [Prod.ext_iff]

set_option maxRecDepth 40000 in
/-- C5 counterexample: deliver 700 errors, then 400 more.  1100 > 1000
errors have been observed, yet the stored list has only 900 entries and
is missing the error of row 601 even though that error is among the
most recent 500 observed (it lies in the last 500 of the 1100); the
first-500 + most-recent-500 shape the claim asserts would have
retained it. -/
theorem c5_counterexample :
    (errsA ++ errsB).length = 1100 ∧
      (⟨601, "email", "", "duplicate"⟩ : ValidationError) ∈
        (errsA ++ errsB).drop 600 ∧
      (mergeErrors (mergeErrors [] errsA) errsB).length = 900 ∧
      (⟨601, "email", "", "duplicate"⟩ : ValidationError) ∉
        mergeErrors (mergeErrors [] errsA) errsB := by
  refine ⟨by decide, by decide, by decide, by decide⟩

/-- Below the cap, the merge is a plain append. -/
theorem mergeErrors_of_le (cur new : List ValidationError)
    (h : cur.length + new.length ≤ 1000) :
    mergeErrors cur new = cur ++ new := by
  unfold mergeErrors
  rw [if_neg (by omega)]

/-- Crossing the cap with fewer than 500 stored errors. -/
theorem mergeErrors_cross_small (cur new : List ValidationError)
    (hcross : 1000 < cur.length + new.length) (hc : cur.length < 500) :
    mergeErrors cur new =
      (cur ++ new.take (500 - cur.length)).take 500 ++
        new.drop (new.length - 500) := by
  have hn : 500 < new.length := by omega
  have hmin : min (500 - cur.length) new.length = 500 - cur.length :=
    Nat.min_eq_left (by omega)
  unfold mergeErrors
  rw [if_pos hcross, if_pos hc, hmin, if_pos hn]

/-- Crossing the cap with at least 500 stored errors and more than 500
new ones. -/
theorem mergeErrors_cross_big (cur new : List ValidationError)
    (hcross : 1000 < cur.length + new.length) (hc : ¬ cur.length < 500)
    (hn : 500 < new.length) :
    mergeErrors cur new = cur.take 500 ++ new.drop (new.length - 500) := by
  unfold mergeErrors
  rw [if_pos hcross, if_neg hc, if_pos hn]

/-- Crossing the cap with at least 500 stored errors and at most 500
new ones. -/
theorem mergeErrors_cross_few (cur new : List ValidationError)
    (hcross : 1000 < cur.length + new.length) (hc : ¬ cur.length < 500)
    (hn : ¬ 500 < new.length) :
    mergeErrors cur new = cur.take 500 ++ new := by
  unfold mergeErrors
  rw [if_pos hcross, if_neg hc, if_neg hn]

/-- One merge step preserves the error-cap shape. -/
theorem mergeErrors_inv (obs cur new : List ValidationError)
    (h : errCapInv obs cur) : errCapInv (obs ++ new) (mergeErrors cur new) := by
  obtain ⟨hlen, hsmall, hbig⟩ := h
  by_cases hcross : 1000 < cur.length + new.length
  · have hobs_cur : obs.length ≤ 1000 → cur = obs := hsmall
    have hgt : 1000 < (obs ++ new).length := by
      rw [List.length_append]
      by_cases ho : obs.length ≤ 1000
      · have := hobs_cur ho
        subst this
        omega
      · omega
    by_cases hc : cur.length < 500
    · -- fewer than 500 stored: the invariant forces cur = obs
      have hobs : obs.length ≤ 1000 := by
        by_contra hgt2
        push_neg at hgt2
        have := (hbig hgt2).2
        omega
      have hce : cur = obs := hsmall hobs
      subst hce
      rw [mergeErrors_cross_small cur new hcross hc]
      have htk : (new.take (500 - cur.length)).length = 500 - cur.length := by
        rw [List.length_take]
        omega
      have hcur1 : (cur ++ new.take (500 - cur.length)).length = 500 := by
        rw [List.length_append, htk]
        omega
      have hfull : (cur ++ new.take (500 - cur.length)).take 500 =
          cur ++ new.take (500 - cur.length) :=
        List.take_of_length_le (by omega)
      refine ⟨?_, fun hle => absurd hgt (by omega), fun _ => ⟨?_, ?_⟩⟩
      · rw [List.length_append, hfull, hcur1, List.length_drop]
        omega
      · rw [List.take_append_eq_append_take, hfull, hcur1]
        have h500 : (500 : Nat) - 500 = 0 := by omega
        rw [h500, List.take_zero, List.append_nil, hfull,
          List.take_append_eq_append_take,
          List.take_of_length_le (by omega : cur.length ≤ 500)]
      · rw [List.length_append, hfull, hcur1, List.length_drop]
        omega
    · -- at least 500 stored
      have htake : cur.take 500 = obs.take 500 := by
        by_cases ho : obs.length ≤ 1000
        · rw [hsmall ho]
        · exact (hbig (by omega)).1
      have hobs500 : 500 ≤ obs.length := by
        by_cases ho : obs.length ≤ 1000
        · have := hsmall ho
          subst this
          omega
        · omega
      have hobstake : (obs ++ new).take 500 = obs.take 500 := by
        rw [List.take_append_eq_append_take]
        have : (500 : Nat) - obs.length = 0 := by omega
        rw [this, List.take_zero, List.append_nil]
      have hct : (cur.take 500).length = 500 := by
        rw [List.length_take]
        omega
      have hctt : (cur.take 500).take 500 = cur.take 500 :=
        List.take_of_length_le (by omega)
      by_cases hn : 500 < new.length
      · rw [mergeErrors_cross_big cur new hcross hc hn]
        refine ⟨?_, fun hle => absurd hgt (by omega), fun _ => ⟨?_, ?_⟩⟩
        · rw [List.length_append, hct, List.length_drop]
          omega
        · rw [List.take_append_eq_append_take, hct]
          have h500 : (500 : Nat) - 500 = 0 := by omega
          rw [h500, List.take_zero, List.append_nil, hctt, htake, hobstake]
        · rw [List.length_append, hct, List.length_drop]
          omega
      · rw [mergeErrors_cross_few cur new hcross hc hn]
        refine ⟨?_, fun hle => absurd hgt (by omega), fun _ => ⟨?_, ?_⟩⟩
        · rw [List.length_append, hct]
          omega
        · rw [List.take_append_eq_append_take, hct]
          have h500 : (500 : Nat) - 500 = 0 := by omega
          rw [h500, List.take_zero, List.append_nil, hctt, htake, hobstake]
        · rw [List.length_append, hct]
          omega
  · -- no crossing: plain append
    push_neg at hcross
    rw [mergeErrors_of_le cur new hcross]
    refine ⟨by rw [List.length_append]; omega, fun hle => ?_, fun hgt => ?_⟩
    · rw [List.length_append] at hle
      rw [hsmall (by omega)]
    · rw [List.length_append] at hgt
      have hobs : 1000 < obs.length := by
        by_contra ho
        push_neg at ho
        have := hsmall ho
        subst this
        omega
      obtain ⟨ht, hl⟩ := hbig hobs
      constructor
      · rw [List.take_append_eq_append_take, List.take_append_eq_append_take]
        have h1 : (500 : Nat) - cur.length = 0 := by omega
        have h2 : (500 : Nat) - obs.length = 0 := by omega
        rw [h1, h2, List.take_zero, List.append_nil, List.append_nil, ht]
      · rw [List.length_append]
        omega

/-- The error-cap shape holds for every job whose error log started
empty, under any `UpdateImportJob` call sequence. -/
theorem runUpdates_errCapInv (now : Nat) (j : ImportJob) (hj : j.errors = [])
    (us : List UpdateArgs) :
    errCapInv (deliveredErrors us) (runUpdates now j us).errors := by
  induction us using List.reverseRecOn with
  | nil =>
    simp only [runUpdates, deliveredErrors, List.foldl_nil, hj]
    exact ⟨by simp, fun _ => rfl, fun h => by simp at h⟩
  | append_singleton us u ih =>
    have h1 : runUpdates now j (us ++ [u]) =
        applyImportUpdate now (runUpdates now j us) u := by
      simp [runUpdates, List.foldl_append]
    have h2 : deliveredErrors (us ++ [u]) = deliveredErrors us ++ u.errors := by
      simp [deliveredErrors, List.foldl_append]
    rw [h1, h2]
    exact mergeErrors_inv _ _ _ ih

/-- C5 amended: after any sequence of `UpdateImportJob` calls on a
freshly created job, the job's error list never exceeds 1000 entries;
while at most 1000 errors have been delivered in total the list is
exactly the delivered errors in order, and once more than 1000 have
been delivered the list always retains the first 500 delivered errors
as its prefix (with at least 501 entries) — but, unlike the claim, the
remainder is not in general the most recent 500 delivered errors. -/
theorem c5_error_cap (now createdAt : Nat) (id resourceType fileName : String)
    (us : List UpdateArgs) :
    ((runUpdates now (newImportJob id resourceType fileName createdAt) us).errors.length
        ≤ 1000) ∧
    ((deliveredErrors us).length ≤ 1000 →
      (runUpdates now (newImportJob id resourceType fileName createdAt) us).errors =
        deliveredErrors us) ∧
    (1000 < (deliveredErrors us).length →
      (runUpdates now (newImportJob id resourceType fileName createdAt) us).errors.take 500 =
          (deliveredErrors us).take 500 ∧
        501 ≤ (runUpdates now (newImportJob id resourceType fileName createdAt) us).errors.length) :=
  runUpdates_errCapInv now (newImportJob id resourceType fileName createdAt)
    rfl us

set_option maxRecDepth 40000 in
/-- C5 witness: the theorem applied to the concrete 700 + 400 delivery
(1100 observed errors, crossing the cap). -/
theorem c5_error_cap_witness :
    1000 < (deliveredErrors
      [⟨"processing", 0, 700, 0, 700, errsA⟩,
       ⟨"processing", 0, 1100, 0, 1100, errsB⟩]).length ∧
    ((runUpdates 0 (newImportJob "j" "users" "f.csv" 0)
        [⟨"processing", 0, 700, 0, 700, errsA⟩,
         ⟨"processing", 0, 1100, 0, 1100, errsB⟩]).errors.take 500 =
      (deliveredErrors
        [⟨"processing", 0, 700, 0, 700, errsA⟩,
         ⟨"processing", 0, 1100, 0, 1100, errsB⟩]).take 500 ∧
     501 ≤ (runUpdates 0 (newImportJob "j" "users" "f.csv" 0)
        [⟨"processing", 0, 700, 0, 700, errsA⟩,
         ⟨"processing", 0, 1100, 0, 1100, errsB⟩]).errors.length) :=
  ⟨by decide,
   (c5_error_cap 0 0 "j" "users" "f.csv"
      [⟨"processing", 0, 700, 0, 700, errsA⟩,
       ⟨"processing", 0, 1100, 0, 1100, errsB⟩]).2.2 (by decide)⟩

/-- The accepted sublist of a batch is no longer than the batch. -/
theorem validateUsers_length_le (ctx : ValCtx) (db : List User) (startRow : Nat) :
    ∀ (us : List User) (i : Nat),
      (validateUsers ctx db startRow us i).1.length ≤ us.length := by
  intro us
  induction us with
  | nil => intro i; simp [validateUsers]
  | cons u rest ih =>
    intro i
    simp only [validateUsers]
    split
    · simpa using ih (i + 1)
    · simpa using Nat.le_succ_of_le (ih (i + 1))

/-- Appending one update that dominates all previous ones keeps the
update list monotone. -/
theorem pairwise_push (us : List UpdateArgs) (u : UpdateArgs)
    (hpw : us.Pairwise updatesOrd)
    (hb : ∀ v ∈ us, v.total ≤ u.total ∧ v.valid ≤ u.valid) :
    (us ++ [u]).Pairwise updatesOrd := by
  rw [List.pairwise_append]
  refine ⟨hpw, List.pairwise_singleton _ _, ?_⟩
  intro a ha b hbm
  simp only [List.mem_singleton] at hbm
  subst hbm
  exact hb a ha

/-- Unified form of the batch-full block: when the accepted sublist is
empty, the two branches of the insert guard coincide, so `csvFlush` is
always the following record update. -/
theorem csvFlush_eq (ctx : ValCtx) (st : CSVState) :
    csvFlush ctx st =
      { st with
        totalValid := st.totalValid +
          (validateUsers ctx st.inserted (st.totalProcessed - st.batch.length)
            st.batch 0).1.length,
        inserted := st.inserted ++
          (validateUsers ctx st.inserted (st.totalProcessed - st.batch.length)
            st.batch 0).1,
        valErrors := st.valErrors ++
          (validateUsers ctx st.inserted (st.totalProcessed - st.batch.length)
            st.batch 0).2,
        batch := [],
        updates := st.updates ++
          [⟨"processing", st.totalProcessed * 50 / (st.totalProcessed + 1000),
            st.totalProcessed,
            st.totalValid + (validateUsers ctx st.inserted
              (st.totalProcessed - st.batch.length) st.batch 0).1.length,
            (st.valErrors ++ (validateUsers ctx st.inserted
              (st.totalProcessed - st.batch.length) st.batch 0).2).length,
            st.valErrors ++ (validateUsers ctx st.inserted
              (st.totalProcessed - st.batch.length) st.batch 0).2⟩] } := by
  unfold csvFlush
  dsimp only
  split
  next hne => rfl
  next hne =>
    rw [not_ne_iff] at hne
    rw [hne]
    simp

/-- The batch-full block preserves the loop invariant. -/
theorem csvFlush_good (ctx : ValCtx) (st : CSVState) (h : csvGood st) :
    csvGood (csvFlush ctx st) := by
  obtain ⟨hpw, hup, hcnt⟩ := h
  have hvl := validateUsers_length_le ctx st.inserted
    (st.totalProcessed - st.batch.length) st.batch 0
  rw [csvFlush_eq]
  unfold csvGood
  dsimp only
  refine ⟨?_, ?_, ?_⟩
  · refine pairwise_push _ _ hpw ?_
    intro v hv
    obtain ⟨h1, h2, _, _⟩ := hup v hv
    exact ⟨h1, by dsimp only; omega⟩
  · intro u hu
    simp only [List.mem_append, List.mem_singleton] at hu
    rcases hu with hu | hu
    · obtain ⟨h1, h2, h3, h4⟩ := hup u hu
      exact ⟨h1, by omega, h3, h4⟩
    · subst hu
      refine ⟨le_refl _, le_refl _, rfl, ?_⟩
      dsimp only
      omega
  · simp only [List.length_nil]
    omega

/-- The counter/flush tail of an iteration preserves the invariant,
provided the batch may exceed the counters by the one row just
consumed. -/
theorem csvAfterCount_good (ctx : ValCtx) (st : CSVState)
    (hpw : st.updates.Pairwise updatesOrd)
    (hup : ∀ u ∈ st.updates,
      u.total ≤ st.totalProcessed ∧ u.valid ≤ st.totalValid ∧
        u.status = "processing" ∧ u.valid ≤ u.total)
    (hcnt : st.totalValid + st.batch.length ≤ st.totalProcessed + 1) :
    csvGood (csvAfterCount ctx st) := by
  unfold csvAfterCount
  have hgood : csvGood
      { st with rowNumber := st.rowNumber + 1,
                totalProcessed := st.totalProcessed + 1 } := by
    unfold csvGood
    dsimp only
    refine ⟨hpw, ?_, by omega⟩
    intro u hu
    obtain ⟨h1, h2, h3, h4⟩ := hup u hu
    exact ⟨by omega, h2, h3, h4⟩
  dsimp only
  split
  · exact csvFlush_good ctx _ hgood
  · exact hgood

/-- One loop iteration preserves the invariant. -/
theorem csvStep_good (ctx : ValCtx) (header : List String) (st : CSVState)
    (h : csvGood st) (row : CSVRow) : csvGood (csvStep ctx header st row) := by
  obtain ⟨hpw, hup, hcnt⟩ := h
  cases row with
  | err =>
    unfold csvStep csvGood
    dsimp only
    refine ⟨?_, ?_, ?_⟩
    · refine pairwise_push _ _ hpw ?_
      intro v hv
      obtain ⟨h1, h2, _, _⟩ := hup v hv
      exact ⟨h1, h2⟩
    · intro u hu
      simp only [List.mem_append, List.mem_singleton] at hu
      rcases hu with hu | hu
      · exact hup u hu
      · subst hu
        refine ⟨le_refl _, le_refl _, rfl, ?_⟩
        dsimp only
        omega
    · omega
  | record cells =>
    simp only [csvStep]
    cases hp : parseUserFromCSV ctx header cells with
    | error msg =>
      refine csvAfterCount_good ctx _ ?_ ?_ ?_
      · refine pairwise_push _ _ hpw ?_
        intro v hv
        obtain ⟨h1, h2, _, _⟩ := hup v hv
        exact ⟨h1, h2⟩
      · intro u hu
        simp only [List.mem_append, List.mem_singleton] at hu
        rcases hu with hu | hu
        · exact hup u hu
        · subst hu
          refine ⟨le_refl _, le_refl _, rfl, ?_⟩
          dsimp only
          omega
      · dsimp only
        omega
    | ok u =>
      refine csvAfterCount_good ctx _ hpw ?_ ?_
      · exact hup
      · simp only [List.length_append, List.length_singleton]
        omega

/-- The whole loop preserves the invariant. -/
theorem csvRun_good (ctx : ValCtx) (header : List String) (rows : List CSVRow)
    (st : CSVState) (h : csvGood st) :
    csvGood (rows.foldl (csvStep ctx header) st) := by
  induction rows generalizing st with
  | nil => exact h
  | cons r rest ih =>
    exact ih _ (csvStep_good ctx header st h r)

/-- The invariant holds at loop entry. -/
theorem csvInit_good : csvGood csvInit := by
  refine ⟨List.Pairwise.nil, ?_, ?_⟩ <;> simp [csvInit]

/-- Unified form of the end-of-input block: validating an empty final
batch is a no-op, so `csvFinish` is always the following record
update (the terminal update carries the status rule of the source). -/
theorem csvFinish_eq (ctx : ValCtx) (st : CSVState) :
    csvFinish ctx st =
      { st with
        totalValid := st.totalValid +
          (validateUsers ctx st.inserted (st.totalProcessed - st.batch.length)
            st.batch 0).1.length,
        inserted := st.inserted ++
          (validateUsers ctx st.inserted (st.totalProcessed - st.batch.length)
            st.batch 0).1,
        valErrors := st.valErrors ++
          (validateUsers ctx st.inserted (st.totalProcessed - st.batch.length)
            st.batch 0).2,
        batch := [],
        updates := st.updates ++
          [⟨(if (st.valErrors ++ (validateUsers ctx st.inserted
                (st.totalProcessed - st.batch.length) st.batch 0).2) ≠ [] &&
                (st.totalValid + (validateUsers ctx st.inserted
                  (st.totalProcessed - st.batch.length) st.batch 0).1.length) = 0
             then "failed" else "completed"),
            100, st.totalProcessed,
            st.totalValid + (validateUsers ctx st.inserted
              (st.totalProcessed - st.batch.length) st.batch 0).1.length,
            (st.valErrors ++ (validateUsers ctx st.inserted
              (st.totalProcessed - st.batch.length) st.batch 0).2).length,
            st.valErrors ++ (validateUsers ctx st.inserted
              (st.totalProcessed - st.batch.length) st.batch 0).2⟩] } := by
  unfold csvFinish
  dsimp only
  split
  next hb =>
    split
    next hne => rfl
    next hne =>
      rw [not_ne_iff] at hne
      rw [hne]
      simp
  next hb =>
    rw [not_ne_iff] at hb
    rw [hb]
    simp [validateUsers]

/-- The update list after `csvFinish` is monotone in totals/valids, and
every update reports no more valid than total records and satisfies the
terminal-progress rule. -/
theorem csvFinish_facts (ctx : ValCtx) (st : CSVState) (h : csvGood st) :
    (csvFinish ctx st).updates.Pairwise updatesOrd ∧
      ∀ u ∈ (csvFinish ctx st).updates,
        u.valid ≤ u.total ∧
          ((u.status = "completed" ∨ u.status = "failed") → u.progress = 100) := by
  obtain ⟨hpw, hup, hcnt⟩ := h
  have hvl := validateUsers_length_le ctx st.inserted
    (st.totalProcessed - st.batch.length) st.batch 0
  rw [csvFinish_eq]
  dsimp only
  constructor
  · refine pairwise_push _ _ hpw ?_
    intro v hv
    obtain ⟨h1, h2, _, _⟩ := hup v hv
    exact ⟨h1, by dsimp only; omega⟩
  · intro u hu
    simp only [List.mem_append, List.mem_singleton] at hu
    rcases hu with hu | hu
    · obtain ⟨_, _, h3, h4⟩ := hup u hu
      refine ⟨h4, ?_⟩
      intro hc
      rcases hc with hc | hc <;> rw [h3] at hc <;> exact absurd hc (by decide)
    · subst hu
      refine ⟨?_, fun _ => rfl⟩
      dsimp only
      omega

/-- Every users-CSV run produces a monotone update sequence whose
updates report no more valid than total records and give every terminal
update progress 100. -/
theorem runImportUsers_good (ctx : ValCtx) (input : List CSVRow) :
    (runImportUsers ctx input).Pairwise updatesOrd ∧
      ∀ u ∈ runImportUsers ctx input,
        u.valid ≤ u.total ∧
          ((u.status = "completed" ∨ u.status = "failed") → u.progress = 100) := by
  unfold runImportUsers
  cases input with
  | nil =>
    simp only [processUsersCSV]
    constructor
    · refine List.pairwise_cons.2 ⟨?_, List.pairwise_singleton _ _⟩
      intro u hu
      simp only [List.mem_singleton] at hu
      subst hu
      exact ⟨Nat.zero_le _, Nat.zero_le _⟩
    · intro u hu
      simp only [List.mem_cons, List.mem_singleton, List.not_mem_nil] at hu
      rcases hu with hu | hu | hu
      · subst hu
        exact ⟨le_refl _, fun hc => by
          rcases hc with hc | hc <;> exact absurd hc (by decide)⟩
      · subst hu
        exact ⟨le_refl _, fun _ => rfl⟩
      · exact absurd hu (by decide)
  | cons r rows =>
    cases r with
    | err =>
      simp only [processUsersCSV]
      constructor
      · refine List.pairwise_cons.2 ⟨?_, List.pairwise_singleton _ _⟩
        intro u hu
        simp only [List.mem_singleton] at hu
        subst hu
        exact ⟨Nat.zero_le _, Nat.zero_le _⟩
      · intro u hu
        simp only [List.mem_cons, List.mem_singleton, List.not_mem_nil] at hu
        rcases hu with hu | hu | hu
        · subst hu
          exact ⟨le_refl _, fun hc => by
            rcases hc with hc | hc <;> exact absurd hc (by decide)⟩
        · subst hu
          exact ⟨le_refl _, fun _ => rfl⟩
        · exact absurd hu (by decide)
    | record header =>
      simp only [processUsersCSV]
      have hg := csvRun_good ctx header rows csvInit csvInit_good
      have hf := csvFinish_facts ctx _ hg
      constructor
      · refine List.pairwise_cons.2 ⟨?_, hf.1⟩
        intro u _
        exact ⟨Nat.zero_le _, Nat.zero_le _⟩
      · intro u hu
        simp only [List.mem_cons] at hu
        rcases hu with hu | hu
        · subst hu
          exact ⟨le_refl _, fun hc => by
            rcases hc with hc | hc <;> exact absurd hc (by decide)⟩
        · exact hf.2 u hu

/-- Every registry snapshot is the created job or carries the fields of
one of the updates applied so far. -/
theorem snapshots_mem (now : Nat) : ∀ (us : List UpdateArgs) (j s : ImportJob),
    s ∈ snapshots now j us →
    s = j ∨ ∃ u ∈ us, s.status = u.status ∧ s.progress = u.progress ∧
      s.totalRecords = u.total ∧ s.validRecords = u.valid ∧
        s.errorRecords = u.errorCount := by
  intro us
  induction us with
  | nil =>
    intro j s hs
    simp only [snapshots, List.scanl] at hs
    simp only [List.mem_singleton] at hs
    exact Or.inl hs
  | cons u us ih =>
    intro j s hs
    simp only [snapshots, List.scanl, List.mem_cons] at hs
    rcases hs with hs | hs
    · exact Or.inl hs
    · rcases ih (applyImportUpdate now j u) s hs with h | ⟨v, hv, hrest⟩
      · subst h
        exact Or.inr ⟨u, List.mem_cons_self _ _, rfl, rfl, rfl, rfl, rfl⟩
      · exact Or.inr ⟨v, List.mem_cons_of_mem _ hv, hrest⟩

/-- Snapshot totals and valids are monotone whenever the update
sequence is monotone and dominates the starting job. -/
theorem snapshots_ord (now : Nat) : ∀ (us : List UpdateArgs) (j : ImportJob),
    us.Pairwise updatesOrd →
    (∀ u ∈ us, j.totalRecords ≤ u.total ∧ j.validRecords ≤ u.valid) →
    (snapshots now j us).Pairwise
      (fun a b => a.totalRecords ≤ b.totalRecords ∧
        a.validRecords ≤ b.validRecords) := by
  intro us
  induction us with
  | nil =>
    intro j _ _
    simp only [snapshots, List.scanl]
    exact List.pairwise_singleton _ _
  | cons u us ih =>
    intro j hpw hj
    obtain ⟨hu1, hu2⟩ := List.pairwise_cons.1 hpw
    have hj' : ∀ v ∈ us,
        (applyImportUpdate now j u).totalRecords ≤ v.total ∧
          (applyImportUpdate now j u).validRecords ≤ v.valid := by
      intro v hv
      exact (hu1 v hv)
    simp only [snapshots, List.scanl]
    refine List.pairwise_cons.2 ⟨?_, ih (applyImportUpdate now j u) hu2 hj'⟩
    intro s hs
    rcases snapshots_mem now us (applyImportUpdate now j u) s hs with h | ⟨v, hv, hrest⟩
    · subst h
      exact (hj u (List.mem_cons_self _ _))
    · obtain ⟨_, _, ht, hvv, _⟩ := hrest
      rw [ht, hvv]
      obtain ⟨hva, hvb⟩ := hj v (List.mem_cons_of_mem _ hv)
      exact ⟨hva, hvb⟩

/-- C1 amended: across the update sequence a users-CSV import performs
(including the initial `processing` mark and the failure path),
successive registry snapshots have monotonically non-decreasing
`total_records` and `valid_records`, and every snapshot in a terminal
status has progress 100.  (Unlike the claim, `progress` and
`error_records` are not monotone — see the counterexample.) -/
theorem c1_monotone (ctx : ValCtx) (input : List CSVRow)
    (now createdAt : Nat) (jobId resourceType fileName : String) :
    (snapshots now (newImportJob jobId resourceType fileName createdAt)
        (runImportUsers ctx input)).Pairwise
      (fun a b => a.totalRecords ≤ b.totalRecords ∧
        a.validRecords ≤ b.validRecords) ∧
      ∀ s ∈ snapshots now (newImportJob jobId resourceType fileName createdAt)
          (runImportUsers ctx input),
        (s.status = "completed" ∨ s.status = "failed") → s.progress = 100 := by
  obtain ⟨hpw, hup⟩ := runImportUsers_good ctx input
  constructor
  · refine snapshots_ord now _ _ hpw ?_
    intro u _
    exact ⟨Nat.zero_le _, Nat.zero_le _⟩
  · intro s hs hterm
    rcases snapshots_mem now _ _ s hs with h | ⟨u, hu, h1, h2, _, _, _⟩
    · subst h
      rcases hterm with hc | hc <;>
        simp only [newImportJob] at hc <;> exact absurd hc (by decide)
    · rw [h2]
      rw [h1] at hterm
      exact (hup u hu).2 hterm

/-- C1 witness: the theorem applied to the empty input; the terminal
(`failed`) snapshot of that run indeed shows progress 100. -/
theorem c1_monotone_witness :
    ({ id := "j", status := "failed", resourceType := "users",
       fileName := "f.csv", totalRecords := 0, validRecords := 0,
       errorRecords := 0,
       errors := [generalError "failed to read CSV header"], createdAt := 0,
       completedAt := some 0, progress := 100 } : ImportJob) ∈
        snapshots 0 (newImportJob "j" "users" "f.csv" 0)
          (runImportUsers ctx0 []) ∧
      (({ id := "j", status := "failed", resourceType := "users",
          fileName := "f.csv", totalRecords := 0, validRecords := 0,
          errorRecords := 0,
          errors := [generalError "failed to read CSV header"], createdAt := 0,
          completedAt := some 0, progress := 100 } : ImportJob)).progress = 100 :=
  ⟨by decide,
   (c1_monotone ctx0 [] 0 0 "j" "users" "f.csv").2 _ (by decide)
     (Or.inr (by decide))⟩

/-- C2 amended: every registry snapshot of a users-CSV import job
satisfies `valid_records ≤ total_records` (the claimed
`valid_records + error_records ≤ total_records` is refuted by the
counterexample: `error_records` counts validation errors — several per
row are possible — and parse-error updates report the pre-increment
total). -/
theorem c2_valid_le_total (ctx : ValCtx) (input : List CSVRow)
    (now createdAt : Nat) (jobId resourceType fileName : String) :
    ∀ s ∈ snapshots now (newImportJob jobId resourceType fileName createdAt)
        (runImportUsers ctx input),
      s.validRecords ≤ s.totalRecords := by
  intro s hs
  rcases snapshots_mem now _ _ s hs with h | ⟨u, hu, _, _, ht, hv, _⟩
  · subst h
    exact le_refl _
  · rw [ht, hv]
    exact ((runImportUsers_good ctx input).2 u hu).1

/-- C2 counterexample: a CSV input whose first data row fails
`strconv.ParseBool` yields a snapshot with `total_records = 0`,
`valid_records = 0` and `error_records = 1`, violating
`valid + error ≤ total`. -/
theorem c2_counterexample :
    ∃ s ∈ snapshots 0 (newImportJob "j" "users" "f.csv" 0)
        (runImportUsers ctx0 [CSVRow.record ["active"], CSVRow.record ["zzz"]]),
      ¬ (s.validRecords + s.errorRecords ≤ s.totalRecords) := by
  decide

/-- C2 witness: the theorem applied to that same concrete run, at its
parse-error snapshot. -/
theorem c2_valid_le_total_witness :
    ({ id := "j", status := "processing", resourceType := "users",
       fileName := "f.csv", totalRecords := 0, validRecords := 0,
       errorRecords := 1,
       errors := [⟨2, "parsing", "", "invalid active value: zzz"⟩],
       createdAt := 0, completedAt := none,
       progress := 0 } : ImportJob).validRecords ≤
      ({ id := "j", status := "processing", resourceType := "users",
         fileName := "f.csv", totalRecords := 0, validRecords := 0,
         errorRecords := 1,
         errors := [⟨2, "parsing", "", "invalid active value: zzz"⟩],
         createdAt := 0, completedAt := none,
         progress := 0 } : ImportJob).totalRecords :=
  c2_valid_le_total ctx0 [CSVRow.record ["active"], CSVRow.record ["zzz"]]
    0 0 "j" "users" "f.csv" _ (by decide)

/-- `goodCells` parses to `u1` under `ctx1`. -/
theorem parse_goodCells : parseUserFromCSV ctx1 hdr1 goodCells = Except.ok u1 := by
  rfl

/-- `badCells` fails field parsing on the `active` cell. -/
theorem parse_badCells :
    parseUserFromCSV ctx1 hdr1 badCells =
      Except.error "invalid active value: zzz" := by
  rfl

/-- Under `ctx1`, `u1` validates cleanly whatever the inserted list and
row number. -/
theorem validateUser_u1 (db : List User) (k : Nat) :
    validateUser ctx1 db u1 k = [] := by
  simp [validateUser, structErrorsUser, ctx1, u1, roleAllowed]

/-- Under `ctx1`, a batch of copies of `u1` is accepted wholesale. -/
theorem validateUsers_rep (db : List User) (s : Nat) :
    ∀ (n i : Nat),
      validateUsers ctx1 db s (List.replicate n u1) i =
        (List.replicate n v1, []) := by
  intro n
  induction n with
  | zero => intro i; simp [validateUsers]
  | succ n ih =>
    intro i
    rw [List.replicate_succ]
    simp only [validateUsers, validateUser_u1, ih (i + 1)]
    simp [setTimestampsUser, generateIdUser, ctx1, u1, v1, List.replicate_succ]

/-- One parse-clean row below the batch threshold just accumulates. -/
theorem csvStep_goodRow (st : CSVState) (hlen : st.batch.length + 1 < 1000) :
    csvStep ctx1 hdr1 st (CSVRow.record goodCells) =
      { st with batch := st.batch ++ [u1],
                rowNumber := st.rowNumber + 1,
                totalProcessed := st.totalProcessed + 1 } := by
  simp only [csvStep, parse_goodCells]
  unfold csvAfterCount
  dsimp only
  rw [if_neg]
  simp only [List.length_append, List.length_singleton, BatchSize]
  omega

/-- Folding `n ≤ 999 - len(batch)` parse-clean rows just accumulates
them. -/
theorem foldl_goodRows :
    ∀ (n : Nat) (st : CSVState), st.batch.length + n ≤ 999 →
      (List.replicate n (CSVRow.record goodCells)).foldl
          (csvStep ctx1 hdr1) st =
        { st with batch := st.batch ++ List.replicate n u1,
                  rowNumber := st.rowNumber + n,
                  totalProcessed := st.totalProcessed + n } := by
  intro n
  induction n with
  | zero =>
    intro st h
    simp
  | succ n ih =>
    intro st h
    rw [List.replicate_succ, List.foldl_cons, csvStep_goodRow st (by omega)]
    rw [ih _ (by simp only [List.length_append, List.length_singleton]; omega)]
    have hlist : (st.batch ++ [u1]) ++ List.replicate n u1 =
        st.batch ++ List.replicate (n + 1) u1 := by
      rw [List.append_assoc, List.singleton_append, ← List.replicate_succ]
    dsimp only
    rw [hlist]
    congr 1 <;> omega

/-- The first 999 rows of the 1001-row run just fill the batch. -/
theorem foldl999 :
    (List.replicate 999 (CSVRow.record goodCells)).foldl
        (csvStep ctx1 hdr1) csvInit = st999 := by
  rw [foldl_goodRows 999 csvInit (by simp [csvInit])]
  unfold csvInit st999
  dsimp only
  congr 1

set_option maxRecDepth 200000 in
/-- The 1000th row fills the batch and triggers the flush: the batch
update carries progress 25, totals 1000/1000 and error count 0. -/
theorem csvStep_flush999 :
    csvStep ctx1 hdr1 st999 (CSVRow.record goodCells) = st1000 := by
  simp only [st999, csvStep, parse_goodCells]
  unfold csvAfterCount
  dsimp only
  rw [← List.replicate_succ']
  rw [if_pos (by simp [BatchSize])]
  rw [csvFlush_eq]
  dsimp only
  simp only [validateUsers_rep, List.length_replicate, List.nil_append,
    List.append_nil, List.length_nil, Nat.reduceAdd, Nat.reduceMul,
    Nat.reduceDiv]
  unfold st1000
  congr 1

/-- The parse-failing 1001st row pushes an update with progress 0 and
error count 1. -/
theorem csvStep_badRow :
    csvStep ctx1 hdr1 st1000 (CSVRow.record badCells) = st1001 := by
  simp only [st1000, csvStep, parse_badCells]
  unfold csvAfterCount
  dsimp only
  rw [if_neg (by simp [BatchSize])]
  unfold st1001
  congr 1

/-- End of input: the terminal update is `completed` with progress 100,
totals 1001/1000 and error count 0 (the validator accumulated no
errors; the parse error is not consulted). -/
theorem csvFinish_st1001 :
    (csvFinish ctx1 st1001).updates =
      [⟨"processing", 25, 1000, 1000, 0, []⟩,
       ⟨"processing", 0, 1000, 1000, 1,
         [⟨1002, "parsing", "", "invalid active value: zzz"⟩]⟩,
       ⟨"completed", 100, 1001, 1000, 0, []⟩] := by
  rw [csvFinish_eq]
  unfold st1001
  dsimp only
  simp only [validateUsers, List.append_nil, List.length_nil, Nat.add_zero]
  norm_num

/-- The full update sequence of the 1001-row run: a batch update with
progress 25 and error count 0, then a parse-error update with progress
0 and error count 1, then the terminal update with error count 0. -/
theorem runImportUsers_bigInput :
    runImportUsers ctx1 bigInput =
      [⟨"processing", 0, 0, 0, 0, []⟩,
       ⟨"processing", 25, 1000, 1000, 0, []⟩,
       ⟨"processing", 0, 1000, 1000, 1,
         [⟨1002, "parsing", "", "invalid active value: zzz"⟩]⟩,
       ⟨"completed", 100, 1001, 1000, 0, []⟩] := by
  have hsplit : List.replicate 1000 (CSVRow.record goodCells) =
      List.replicate 999 (CSVRow.record goodCells) ++
        [CSVRow.record goodCells] := by
    rw [← List.replicate_succ']
  unfold runImportUsers bigInput
  simp only [processUsersCSV]
  rw [hsplit, List.append_assoc, List.foldl_append, foldl999]
  simp only [List.singleton_append, List.foldl_cons, List.foldl_nil]
  rw [csvStep_flush999, csvStep_badRow, csvFinish_st1001]

/-- C1 counterexample: on the 1001-row input the successive registry
snapshots carry `(progress, error_records)` values
`(0,0), (0,0), (25,0), (0,1), (100,0)`: progress drops from 25 to 0
(the parse-error update hard-codes progress 0) and `error_records`
drops from 1 to 0 (the terminal update reports only the batch
validator's count, discarding the parse error) — so neither progress
nor the error counter is monotone across snapshots, refuting the
claim. -/
theorem c1_counterexample :
    (snapshots 0 (newImportJob "j" "users" "f.csv" 0)
        (runImportUsers ctx1 bigInput)).map
      (fun s => (s.progress, s.errorRecords)) =
      [(0, 0), (0, 0), (25, 0), (0, 1), (100, 0)] := by
  rw [runImportUsers_bigInput]
  decide

/-- C3 amended: for a users-CSV import without a persistence error, if
the header cannot be read (empty input, or a reader error on the first
line) the pipeline aborts and the job is marked `failed` with zero
counters and a single general error — so an empty input yields
`failed`, not `completed`.  Otherwise the terminal update has progress
100 and its status is `failed` exactly when the batch validator
recorded at least one error (its `errors` payload) and no records were
persisted; a header-only input yields `completed` with zero counters.
Errors recorded for rows that failed CSV/field parsing are not
consulted by this determination. -/
theorem c3_terminal_status (ctx : ValCtx) (input : List CSVRow) :
    ∃ u, (runImportUsers ctx input).getLast? = some u ∧
      u.progress = 100 ∧
      ((input.head? = none ∨ input.head? = some CSVRow.err) →
        u = ⟨"failed", 100, 0, 0, 0,
          [generalError "failed to read CSV header"]⟩) ∧
      (∀ header rows, input = CSVRow.record header :: rows →
        (u.status = "failed" ↔ (u.errors ≠ [] ∧ u.valid = 0)) ∧
          (u.status = "completed" ∨ u.status = "failed") ∧
          (rows = [] → u = ⟨"completed", 100, 0, 0, 0, []⟩)) := by
  cases input with
  | nil =>
    refine ⟨⟨"failed", 100, 0, 0, 0,
      [generalError "failed to read CSV header"]⟩, rfl, rfl, fun _ => rfl, ?_⟩
    intro header rows h
    exact absurd h (by simp)
  | cons r rows =>
    cases r with
    | err =>
      refine ⟨⟨"failed", 100, 0, 0, 0,
        [generalError "failed to read CSV header"]⟩, rfl, rfl, fun _ => rfl, ?_⟩
      intro header rows' h
      exact absurd h (by simp)
    | record header =>
      unfold runImportUsers
      simp only [processUsersCSV]
      rw [csvFinish_eq]
      dsimp only
      rw [← List.cons_append]
      refine ⟨_, List.getLast?_concat _, rfl, ?_, ?_⟩
      · intro h
        rcases h with h | h <;> simp at h
      · intro header' rows' heq
        simp only [List.cons.injEq, CSVRow.record.injEq] at heq
        obtain ⟨hh, hr⟩ := heq
        subst hh
        subst hr
        refine ⟨?_, ?_, ?_⟩
        · dsimp only
          split
          next hc =>
            simp only [Bool.and_eq_true, decide_eq_true_eq] at hc
            exact ⟨fun _ => hc, fun _ => rfl⟩
          next hc =>
            simp only [Bool.and_eq_true, decide_eq_true_eq] at hc
            constructor
            · intro h
              exact absurd h (by decide)
            · intro h
              exact absurd h hc
        · dsimp only
          split
          · exact Or.inr rfl
          · exact Or.inl rfl
        · intro h0
          subst h0
          rfl

/-- C3 counterexample: (i) an input whose only data row fails
`strconv.ParseBool` records a validation error on the job and persists
nothing, yet terminates `completed` (the claim requires `failed`);
(ii) an empty input terminates `failed` (the claim requires
`completed` with zero counters). -/
theorem c3_counterexample :
    (runImportUsers ctx0
        [CSVRow.record ["active"], CSVRow.record ["zzz"]]).getLast? =
      some ⟨"completed", 100, 1, 0, 0, []⟩ ∧
    (runUpdates 0 (newImportJob "j" "users" "f.csv" 0)
        (runImportUsers ctx0
          [CSVRow.record ["active"], CSVRow.record ["zzz"]])).errors ≠ [] ∧
    (runUpdates 0 (newImportJob "j" "users" "f.csv" 0)
        (runImportUsers ctx0
          [CSVRow.record ["active"], CSVRow.record ["zzz"]])).validRecords = 0 ∧
    (runImportUsers ctx0 []).getLast? =
      some ⟨"failed", 100, 0, 0, 0,
        [generalError "failed to read CSV header"]⟩ := by
  refine ⟨by decide, by decide, by decide, by decide⟩

/-- C3 witness: the theorem applied to the empty input, whose
header-read failure marks the job `failed`. -/
theorem c3_terminal_status_witness :
    (runImportUsers ctx0 []).getLast? =
      some ⟨"failed", 100, 0, 0, 0,
        [generalError "failed to read CSV header"]⟩ := by
  obtain ⟨u, hl, _, h3, _⟩ := c3_terminal_status ctx0 []
  rw [hl, h3 (Or.inl rfl)]

/-- One iteration of the articles loop on a stuck decoder (a malformed
line at the head, empty batch): the malformed line is never consumed,
the batch stays empty, and exactly one more update (one more `json`
error) is pushed. -/
theorem ndIter_stuck (ctx : ValCtx) (st : NdState)
    (h1 : st.dec.remaining = [NdLine.malformed]) (h2 : st.batch = []) :
    (ndIter ctx st).dec.remaining = [NdLine.malformed] ∧
      (ndIter ctx st).batch = [] ∧
      (ndIter ctx st).updates.length = st.updates.length + 1 := by
  obtain ⟨⟨rem, sticky⟩, tp, tv, batch, rn, ve, ins, ups⟩ := st
  dsimp only at h1 h2
  subst h1
  subst h2
  cases sticky <;>
    · unfold ndIter ndDecode
      simp [BatchSize]

/-- On a stuck decoder the loop guard stays true forever, so the run
never finishes, whatever the fuel. -/
theorem ndRun_stuck (ctx : ValCtx) : ∀ (n : Nat) (st : NdState),
    st.dec.remaining = [NdLine.malformed] → st.batch = [] →
    ndRun ctx n st = none := by
  intro n
  induction n with
  | zero =>
    intro st h1 _
    unfold ndRun ndMore
    rw [h1]
    rfl
  | succ n ih =>
    intro st h1 h2
    unfold ndRun ndMore
    rw [h1]
    obtain ⟨hr, hb, _⟩ := ndIter_stuck ctx st h1 h2
    exact ih _ hr hb

/-- Iterating the loop body on a stuck decoder keeps the invariant and
accumulates one update per iteration. -/
theorem ndIter_iterate_stuck (ctx : ValCtx) : ∀ (n : Nat) (st : NdState),
    st.dec.remaining = [NdLine.malformed] → st.batch = [] →
    ((ndIter ctx)^[n] st).dec.remaining = [NdLine.malformed] ∧
      ((ndIter ctx)^[n] st).batch = [] ∧
      ((ndIter ctx)^[n] st).updates.length = st.updates.length + n := by
  intro n
  induction n with
  | zero =>
    intro st h1 h2
    exact ⟨h1, h2, rfl⟩
  | succ n ih =>
    intro st h1 h2
    obtain ⟨hr, hb, hl⟩ := ih st h1 h2
    obtain ⟨hr', hb', hl'⟩ := ndIter_stuck ctx _ hr hb
    rw [Function.iterate_succ_apply']
    exact ⟨hr', hb', by rw [hl', hl]; omega⟩

/-- C4 (code bug): an articles-NDJSON input whose (first) line is
malformed JSON makes `processArticlesNDJSON` loop forever: `Decode`
records a sticky scanner error and never advances past the bad bytes
while `More()` keeps seeing buffered input, so no fuel bound suffices
for the loop to finish, and each iteration pushes one more `json`
error update to the registry instead of skipping to the next line.
(`processCommentsNDJSON` is the same loop over comments.) -/
theorem c4_malformed_line_diverges (ctx : ValCtx) (n : Nat) :
    ndRun ctx n (ndInit [NdLine.malformed]) = none ∧
      ((ndIter ctx)^[n] (ndInit [NdLine.malformed])).updates.length = n := by
  constructor
  · exact ndRun_stuck ctx n (ndInit [NdLine.malformed]) rfl rfl
  · have := (ndIter_iterate_stuck ctx n (ndInit [NdLine.malformed]) rfl rfl).2.2
    simpa [ndInit] using this

/-- Folding the error accumulator over a list with any base. -/
theorem allUpdateErrors_base (us : List UpdateArgs)
    (B : List ValidationError) :
    us.foldr (fun u acc => u.errors ++ acc) B = allUpdateErrors us ++ B := by
  induction us with
  | nil => simp [allUpdateErrors]
  | cons u us ih => simp [allUpdateErrors, ih, List.append_assoc]

/-- Delivered errors distribute over appended update lists. -/
theorem allUpdateErrors_append (us vs : List UpdateArgs) :
    allUpdateErrors (us ++ vs) = allUpdateErrors us ++ allUpdateErrors vs := by
  unfold allUpdateErrors
  rw [List.foldr_append]
  exact allUpdateErrors_base us _

/-- Delivered errors of a single update. -/
theorem allUpdateErrors_singleton (u : UpdateArgs) :
    allUpdateErrors [u] = u.errors := by
  simp [allUpdateErrors]

/-- Every error `ValidateUser` produces is stamped with the row number
it was called with. -/
theorem validateUser_row (ctx : ValCtx) (db : List User) (u : User) (k : Nat) :
    ∀ e ∈ validateUser ctx db u k, e.row = k := by
  intro e he
  simp only [validateUser, structErrorsUser, List.mem_append] at he
  rcases he with ((((h | h) | h) | h) | h) | h <;> (repeat' split at h) <;>
    simp_all

/-- No error `ValidateUser` produces carries a parsing-path field
name. -/
theorem validateUser_fields (ctx : ValCtx) (db : List User) (u : User)
    (k : Nat) :
    ∀ e ∈ validateUser ctx db u k, e.field ≠ "csv" ∧ e.field ≠ "parsing" := by
  intro e he
  simp only [validateUser, structErrorsUser, List.mem_append] at he
  rcases he with ((((h | h) | h) | h) | h) | h <;> (repeat' split at h) <;>
    simp_all

/-- Every error a batch validation produces comes from validating the
`i`-th batch element with row number `startRow + i0 + i + 1`. -/
theorem validateUsers_errors_mem (ctx : ValCtx) (db : List User)
    (startRow : Nat) :
    ∀ (us : List User) (i0 : Nat), ∀ e ∈ (validateUsers ctx db startRow us i0).2,
      ∃ i, i < us.length ∧ ∃ u, us.get? i = some u ∧
        e ∈ validateUser ctx db u (startRow + (i0 + i) + 1) := by
  intro us
  induction us with
  | nil =>
    intro i0 e he
    simp [validateUsers] at he
  | cons u rest ih =>
    intro i0 e he
    simp only [validateUsers] at he
    split at he
    · obtain ⟨i, hi, v, hv, hmem⟩ := ih (i0 + 1) e he
      refine ⟨i + 1, by simpa using Nat.succ_lt_succ hi, v, by simpa using hv, ?_⟩
      have : startRow + (i0 + 1 + i) + 1 = startRow + (i0 + (i + 1)) + 1 := by
        omega
      rw [← this]
      exact hmem
    · rcases List.mem_append.1 he with h | h
      · exact ⟨0, Nat.succ_pos _, u, rfl, by
          have : startRow + (i0 + 0) + 1 = startRow + i0 + 1 := by omega
          rw [this]
          exact h⟩
      · obtain ⟨i, hi, v, hv, hmem⟩ := ih (i0 + 1) e h
        refine ⟨i + 1, by simpa using Nat.succ_lt_succ hi, v, by simpa using hv, ?_⟩
        have : startRow + (i0 + 1 + i) + 1 = startRow + (i0 + (i + 1)) + 1 := by
          omega
        rw [← this]
        exact hmem

/-- Batch-validation errors never carry a parsing-path field name. -/
theorem validateUsers_fields (ctx : ValCtx) (db : List User) (startRow : Nat)
    (us : List User) (i0 : Nat) :
    ∀ e ∈ (validateUsers ctx db startRow us i0).2,
      e.field ≠ "csv" ∧ e.field ≠ "parsing" := by
  intro e he
  obtain ⟨i, _, u, _, hmem⟩ := validateUsers_errors_mem ctx db startRow us i0 e he
  exact validateUser_fields ctx db u _ e hmem

/-- Parse-error pointers survive extending the row list on the right. -/
theorem parseErrPointers_append (ctx : ValCtx) (header : List String)
    (rs more : List CSVRow) (es : List ValidationError)
    (h : parseErrPointers ctx header rs es) :
    parseErrPointers ctx header (rs ++ more) es := by
  intro e he
  obtain ⟨h1, h2⟩ := h e he
  constructor
  · intro hf
    obtain ⟨k, hk1, hk2, hk3⟩ := h1 hf
    refine ⟨k, hk1, hk2, ?_⟩
    rw [List.get?_append (List.get?_eq_some.1 hk3).1]
    exact hk3
  · intro hf
    obtain ⟨k, cells, msg, hk1, hk2, hk3, hk4⟩ := h2 hf
    refine ⟨k, cells, msg, hk1, hk2, ?_, hk4⟩
    rw [List.get?_append (List.get?_eq_some.1 hk3).1]
    exact hk3

/-- Validation-error pointers survive extending the row list on the
right. -/
theorem valErrPointer_append (ctx : ValCtx) (header : List String)
    (rs more : List CSVRow) (e : ValidationError)
    (h : valErrPointer ctx header rs e) :
    valErrPointer ctx header (rs ++ more) e := by
  obtain ⟨k, cells, u, db, hk1, hk2, hk3, hk4, hk5, hk6⟩ := h
  refine ⟨k, cells, u, db, hk1, by simp only [List.length_append]; omega,
    hk3, ?_, hk5, hk6⟩
  rw [List.get?_append (List.get?_eq_some.1 hk4).1]
  exact hk4

/-- Errors without a parse-path field satisfy the parse-error pointer
property vacuously. -/
theorem pointers_of_noParse (ctx : ValCtx) (header : List String)
    (rs : List CSVRow) (es : List ValidationError) (h : noParseFields es) :
    parseErrPointers ctx header rs es :=
  fun e he =>
    ⟨fun hf => absurd hf (h e he).1, fun hf => absurd hf (h e he).2⟩

/-- Parse-error pointers combine over error-list concatenation. -/
theorem parseErrPointers_join (ctx : ValCtx) (header : List String)
    (rs : List CSVRow) (es fs : List ValidationError)
    (h1 : parseErrPointers ctx header rs es)
    (h2 : parseErrPointers ctx header rs fs) :
    parseErrPointers ctx header rs (es ++ fs) := by
  intro e he
  rcases List.mem_append.1 he with h | h
  · exact h1 e h
  · exact h2 e h

/-- The batch-full block preserves the parse-error invariantʼs
error components and the row counter. -/
theorem csvFlushA (ctx : ValCtx) (header : List String) (pre : List CSVRow)
    (st : CSVState)
    (hpe : parseErrPointers ctx header pre (allUpdateErrors st.updates))
    (hnp : noParseFields st.valErrors) :
    (csvFlush ctx st).rowNumber = st.rowNumber ∧
      parseErrPointers ctx header pre
        (allUpdateErrors (csvFlush ctx st).updates) ∧
      noParseFields (csvFlush ctx st).valErrors := by
  rw [csvFlush_eq]
  dsimp only
  have hnp' : noParseFields (st.valErrors ++
      (validateUsers ctx st.inserted (st.totalProcessed - st.batch.length)
        st.batch 0).2) := by
    intro e he
    rcases List.mem_append.1 he with h | h
    · exact hnp e h
    · exact validateUsers_fields ctx st.inserted _ st.batch 0 e h
  refine ⟨rfl, ?_, hnp'⟩
  rw [allUpdateErrors_append, allUpdateErrors_singleton]
  exact parseErrPointers_join ctx header pre _ _ hpe
    (pointers_of_noParse ctx header pre _ hnp')

/-- The counter/flush tail of an iteration preserves the error
components and bumps the row counter. -/
theorem csvAfterCountA (ctx : ValCtx) (header : List String)
    (pre : List CSVRow) (st : CSVState)
    (hpe : parseErrPointers ctx header pre (allUpdateErrors st.updates))
    (hnp : noParseFields st.valErrors) :
    (csvAfterCount ctx st).rowNumber = st.rowNumber + 1 ∧
      parseErrPointers ctx header pre
        (allUpdateErrors (csvAfterCount ctx st).updates) ∧
      noParseFields (csvAfterCount ctx st).valErrors := by
  unfold csvAfterCount
  dsimp only
  split
  · exact csvFlushA ctx header pre _ hpe hnp
  · exact ⟨rfl, hpe, hnp⟩

/-- One loop iteration preserves the parse-error invariant, extending
the consumed prefix by the row just read. -/
theorem csvStepA (ctx : ValCtx) (header : List String) (pre : List CSVRow)
    (st : CSVState) (r : CSVRow) (h : csvErrInvA ctx header pre st) :
    csvErrInvA ctx header (pre ++ [r]) (csvStep ctx header st r) := by
  obtain ⟨hrow, hpe, hnp⟩ := h
  have hpe' : parseErrPointers ctx header (pre ++ [r])
      (allUpdateErrors st.updates) :=
    parseErrPointers_append ctx header pre [r] _ hpe
  cases r with
  | err =>
    unfold csvStep csvErrInvA
    dsimp only
    refine ⟨by simp [hrow], ?_, hnp⟩
    rw [allUpdateErrors_append, allUpdateErrors_singleton]
    refine parseErrPointers_join ctx header _ _ _ hpe' ?_
    intro e he
    simp only [List.mem_singleton] at he
    subst he
    constructor
    · intro _
      refine ⟨pre.length + 1, by omega, by rw [hrow], ?_⟩
      simp only [Nat.add_sub_cancel]
      exact List.get?_concat_length pre _
    · intro hf
      simp at hf
  | record cells =>
    simp only [csvStep]
    cases hp : parseUserFromCSV ctx header cells with
    | error msg =>
      have hstep := csvAfterCountA ctx header (pre ++ [CSVRow.record cells])
        { st with updates := st.updates ++
            [⟨"processing", 0, st.totalProcessed, st.totalValid, 1,
              [⟨st.rowNumber + 1, "parsing", "", msg⟩]⟩] }
        (by
          dsimp only
          rw [allUpdateErrors_append, allUpdateErrors_singleton]
          refine parseErrPointers_join ctx header _ _ _ hpe' ?_
          intro e he
          simp only [List.mem_singleton] at he
          subst he
          constructor
          · intro hf
            simp at hf
          · intro _
            refine ⟨pre.length + 1, cells, msg, by omega, by rw [hrow], ?_, hp⟩
            simp only [Nat.add_sub_cancel]
            exact List.get?_concat_length pre _)
        hnp
      unfold csvErrInvA
      refine ⟨?_, hstep.2.1, hstep.2.2⟩
      rw [hstep.1]
      simp [hrow]
    | ok u =>
      have hstep := csvAfterCountA ctx header (pre ++ [CSVRow.record cells])
        { st with batch := st.batch ++ [u] } hpe' hnp
      unfold csvErrInvA
      refine ⟨?_, hstep.2.1, hstep.2.2⟩
      rw [hstep.1]
      simp [hrow]

/-- The whole loop preserves the parse-error invariant. -/
theorem csvFoldA (ctx : ValCtx) (header : List String) :
    ∀ (suffix pre : List CSVRow) (st : CSVState),
      csvErrInvA ctx header pre st →
      csvErrInvA ctx header (pre ++ suffix)
        (suffix.foldl (csvStep ctx header) st) := by
  intro suffix
  induction suffix with
  | nil =>
    intro pre st h
    simpa using h
  | cons r rest ih =>
    intro pre st h
    have h1 := csvStepA ctx header pre st r h
    have h2 := ih (pre ++ [r]) (csvStep ctx header st r) h1
    rw [List.append_assoc] at h2
    simpa using h2

/-- The end-of-input block preserves the error components. -/
theorem csvFinishA (ctx : ValCtx) (header : List String) (pre : List CSVRow)
    (st : CSVState)
    (hpe : parseErrPointers ctx header pre (allUpdateErrors st.updates))
    (hnp : noParseFields st.valErrors) :
    parseErrPointers ctx header pre
      (allUpdateErrors (csvFinish ctx st).updates) := by
  rw [csvFinish_eq]
  dsimp only
  have hnp' : noParseFields (st.valErrors ++
      (validateUsers ctx st.inserted (st.totalProcessed - st.batch.length)
        st.batch 0).2) := by
    intro e he
    rcases List.mem_append.1 he with h | h
    · exact hnp e h
    · exact validateUsers_fields ctx st.inserted _ st.batch 0 e h
  rw [allUpdateErrors_append, allUpdateErrors_singleton]
  exact parseErrPointers_join ctx header pre _ _ hpe
    (pointers_of_noParse ctx header pre _ hnp')

/-- A flush of a batch that mirrors a row window produces errors that
point at their rows: element `i` of the batch is validated with row
number `startRow + i + 1 = m + i + 1`, the index of its row. -/
theorem flushErrorsB (ctx : ValCtx) (header : List String) (pre : List CSVRow)
    (st : CSVState) (htp : st.totalProcessed = pre.length) (m : Nat)
    (hm : m + st.batch.length = pre.length)
    (hb : ∀ j < st.batch.length, ∃ cells u,
      pre.get? (m + j) = some (CSVRow.record cells) ∧
      parseUserFromCSV ctx header cells = Except.ok u ∧
      st.batch.get? j = some u) :
    ∀ e ∈ (validateUsers ctx st.inserted
        (st.totalProcessed - st.batch.length) st.batch 0).2,
      valErrPointer ctx header pre e := by
  intro e he
  obtain ⟨i, hi, u, hu, hmem⟩ :=
    validateUsers_errors_mem ctx st.inserted _ st.batch 0 e he
  obtain ⟨cells, u', hc1, hc2, hc3⟩ := hb i hi
  rw [hu] at hc3
  injection hc3 with hc3
  have hrn : st.totalProcessed - st.batch.length + (0 + i) + 1 = m + i + 1 := by
    omega
  rw [hrn] at hmem
  have hrow := validateUser_row ctx st.inserted u (m + i + 1) e hmem
  refine ⟨m + i + 1, cells, u, st.inserted, by omega, by omega, hrow, ?_, ?_, hmem⟩
  · have : m + i + 1 - 1 = m + i := by omega
    rw [this]
    exact hc1
  · rw [hc3]
    exact hc2

/-- The batch-full block preserves the validation-error invariant. -/
theorem csvFlushB (ctx : ValCtx) (header : List String) (pre : List CSVRow)
    (st : CSVState) (h : csvErrInvB ctx header pre st) :
    csvErrInvB ctx header pre (csvFlush ctx st) := by
  obtain ⟨htp, ⟨m, hm, hb⟩, hve, hue⟩ := h
  have hflush := flushErrorsB ctx header pre st htp m hm hb
  rw [csvFlush_eq]
  unfold csvErrInvB
  dsimp only
  have hve' : ∀ e ∈ st.valErrors ++
      (validateUsers ctx st.inserted (st.totalProcessed - st.batch.length)
        st.batch 0).2, valErrPointer ctx header pre e := by
    intro e he
    rcases List.mem_append.1 he with h | h
    · exact hve e h
    · exact hflush e h
  refine ⟨htp, ⟨pre.length, by simp, fun j hj => absurd hj (by simp)⟩, hve', ?_⟩
  rw [allUpdateErrors_append, allUpdateErrors_singleton]
  intro e he
  rcases List.mem_append.1 he with h | h
  · exact hue e h
  · exact hve' e h

/-- One loop iteration on a row that parses preserves the
validation-error invariant, extending the prefix. -/
theorem csvStepB (ctx : ValCtx) (header : List String) (pre : List CSVRow)
    (st : CSVState) (cells : List String) (u : User)
    (hcells : parseUserFromCSV ctx header cells = Except.ok u)
    (h : csvErrInvB ctx header pre st) :
    csvErrInvB ctx header (pre ++ [CSVRow.record cells])
      (csvStep ctx header st (CSVRow.record cells)) := by
  obtain ⟨htp, ⟨m, hm, hb⟩, hve, hue⟩ := h
  simp only [csvStep]
  rw [hcells]
  unfold csvAfterCount
  dsimp only
  have hve' : ∀ e ∈ st.valErrors,
      valErrPointer ctx header (pre ++ [CSVRow.record cells]) e :=
    fun e he => valErrPointer_append ctx header pre _ e (hve e he)
  have hue' : ∀ e ∈ allUpdateErrors st.updates,
      valErrPointer ctx header (pre ++ [CSVRow.record cells]) e :=
    fun e he => valErrPointer_append ctx header pre _ e (hue e he)
  have hb' : ∀ j < (st.batch ++ [u]).length, ∃ cells' u',
      (pre ++ [CSVRow.record cells]).get? (m + j) =
        some (CSVRow.record cells') ∧
      parseUserFromCSV ctx header cells' = Except.ok u' ∧
      (st.batch ++ [u]).get? j = some u' := by
    intro j hj
    simp only [List.length_append, List.length_singleton] at hj
    by_cases hjl : j < st.batch.length
    · obtain ⟨cells', u', h1, h2, h3⟩ := hb j hjl
      refine ⟨cells', u', ?_, h2, ?_⟩
      · rw [List.get?_append (by
          have := (List.get?_eq_some.1 h1).1
          exact this)]
        exact h1
      · rw [List.get?_append hjl]
        exact h3
    · have hj' : j = st.batch.length := by omega
      subst hj'
      refine ⟨cells, u, ?_, hcells, ?_⟩
      · have : m + st.batch.length = pre.length := hm
        rw [this]
        exact List.get?_concat_length pre _
      · exact List.get?_concat_length st.batch _
  have hinv1 : csvErrInvB ctx header (pre ++ [CSVRow.record cells])
      { st with batch := st.batch ++ [u],
                rowNumber := st.rowNumber + 1,
                totalProcessed := st.totalProcessed + 1 } := by
    refine ⟨by simp [htp], ⟨m, ?_, hb'⟩, hve', hue'⟩
    simp only [List.length_append, List.length_singleton]
    omega
  split
  · exact csvFlushB ctx header _ _ hinv1
  · exact hinv1

/-- The whole loop preserves the validation-error invariant when every
remaining row parses. -/
theorem csvFoldB (ctx : ValCtx) (header : List String) :
    ∀ (suffix pre : List CSVRow) (st : CSVState),
      rowsAllParse ctx header suffix →
      csvErrInvB ctx header pre st →
      csvErrInvB ctx header (pre ++ suffix)
        (suffix.foldl (csvStep ctx header) st) := by
  intro suffix
  induction suffix with
  | nil =>
    intro pre st _ h
    simpa using h
  | cons r rest ih =>
    intro pre st hall h
    obtain ⟨cells, u, hr, hcells⟩ := hall r (List.mem_cons_self _ _)
    subst hr
    have h1 := csvStepB ctx header pre st cells u hcells h
    have h2 := ih (pre ++ [CSVRow.record cells])
      (csvStep ctx header st (CSVRow.record cells))
      (fun r' hr' => hall r' (List.mem_cons_of_mem _ hr')) h1
    rw [List.append_assoc] at h2
    simpa using h2

/-- The end-of-input block keeps every delivered error pointing at its
row. -/
theorem csvFinishB (ctx : ValCtx) (header : List String) (pre : List CSVRow)
    (st : CSVState) (h : csvErrInvB ctx header pre st) :
    ∀ e ∈ allUpdateErrors (csvFinish ctx st).updates,
      valErrPointer ctx header pre e := by
  obtain ⟨htp, ⟨m, hm, hb⟩, hve, hue⟩ := h
  have hflush := flushErrorsB ctx header pre st htp m hm hb
  rw [csvFinish_eq]
  dsimp only
  rw [allUpdateErrors_append, allUpdateErrors_singleton]
  intro e he
  rcases List.mem_append.1 he with h | h
  · exact hue e h
  · rcases List.mem_append.1 h with h | h
    · exact hve e h
    · exact hflush e h

/-- C6 amended: in a users-CSV run, every error with field `csv` or
`parsing` delivered to the registry points, at row number `k + 1`, at
the `k`-th data row (1-based, so the header is counted), and that row
indeed fails the reader or the field parser; but — unlike the claim —
when every row parses, each batch-validation error is stamped with the
row number `k` of the data row whose parsed record produced it, i.e.
one *less* than the claimed `k + 1` (`ValidateUsers` numbers batch
element `i` as `startRow + i + 1` with `startRow = totalProcessed -
len(batch)`, which does not count the header). -/
theorem c6_row_numbers (ctx : ValCtx) (header : List String)
    (rows : List CSVRow) :
    parseErrPointers ctx header rows
      (allUpdateErrors (runImportUsers ctx (CSVRow.record header :: rows))) ∧
      (rowsAllParse ctx header rows →
        ∀ e ∈ allUpdateErrors
            (runImportUsers ctx (CSVRow.record header :: rows)),
          valErrPointer ctx header rows e) := by
  have hrun : allUpdateErrors (runImportUsers ctx (CSVRow.record header :: rows)) =
      allUpdateErrors
        (csvFinish ctx (rows.foldl (csvStep ctx header) csvInit)).updates := by
    unfold runImportUsers
    simp only [processUsersCSV]
    show allUpdateErrors (⟨"processing", 0, 0, 0, 0, []⟩ :: _) = _
    simp [allUpdateErrors]
  constructor
  · rw [hrun]
    have hA := csvFoldA ctx header rows [] csvInit
      ⟨rfl, fun e he => absurd he (by simp [allUpdateErrors, csvInit]),
       fun e he => absurd he (by simp [csvInit])⟩
    rw [List.nil_append] at hA
    exact csvFinishA ctx header rows _ hA.2.1 hA.2.2
  · intro hall
    rw [hrun]
    have hB := csvFoldB ctx header rows [] csvInit hall
      ⟨rfl, ⟨0, by simp [csvInit], fun j hj => absurd hj (by simp [csvInit])⟩,
       fun e he => absurd he (by simp [csvInit]),
       fun e he => absurd he (by simp [allUpdateErrors, csvInit])⟩
    rw [List.nil_append] at hB
    exact csvFinishB ctx header rows _ hB

/-- C6 counterexample: the single data row (`k = 1`) with an empty
email produces exactly one validation error, reported with row number
1 — not `k + 1 = 2` as the claim, which counts the header row,
requires.  (The spec's own three-row scenario expects the second data
row to be reported as row 3; this run shows the code reports data row
`k` as `k`.) -/
theorem c6_counterexample :
    allUpdateErrors (runImportUsers ctx0
        [CSVRow.record ["email", "name", "role"],
         CSVRow.record ["", "N", "admin"]]) =
      [⟨1, "email", "", "email is required"⟩] := by
  decide

/-- C6 witness: the amended theorem applied to that concrete run; its
single error is a validation error stamped with the index (1) of the
row that produced it. -/
theorem c6_row_numbers_witness :
    valErrPointer ctx0 ["email", "name", "role"]
      [CSVRow.record ["", "N", "admin"]]
      ⟨1, "email", "", "email is required"⟩ :=
  (c6_row_numbers ctx0 ["email", "name", "role"]
      [CSVRow.record ["", "N", "admin"]]).2
    (fun r hr => by
      simp only [List.mem_singleton] at hr
      subst hr
      exact ⟨["", "N", "admin"],
        ⟨"", "", "N", "admin", false, 0, 0⟩, rfl, rfl⟩)
    ⟨1, "email", "", "email is required"⟩ (by decide)

end BulkApi
